import Mathlib

/-! # LearnPro hero carousel: a shallow embedding of `js/hero-carousel.js`

The script keeps three module-level variables (`currentSlide`, `slideInterval`,
`isTransitioning`) plus two touch coordinates, and mutates the page: class
flags and inline styles of the `.hero-slide` elements, ARIA attributes of the
slides and of the `.dot` indicators, and the text of `#slide-indicator`.

The embedding is explicit state passing.  `State` holds the script variables,
the tracked part of the page, the timers that `setTimeout` has scheduled and
that have neither fired nor been cleared, and the clock.  Each JavaScript
function becomes a function on `State` with the same name.  Timer callbacks
are data (`Callback`), executed by `runCallback`.

Conventions.
* A slide may or may not have a `.hero-content` child (`Slide.content`).
  `updateAriaAttributes` dereferences `slide.querySelector('.hero-content')`
  without a guard (lines 35 and 40): on a slide without that child the call
  throws a `TypeError`.  A function that can throw returns an `Outcome`: the
  state it leaves behind, tagged `returned` or `threw`.  The browser reports an
  exception that escapes a listener or a timer callback and goes on, so the
  page continues from the state left behind (`step`).
* `document.querySelector('.hero-slide.active')` is the first slide, in document
  order, that carries the class `active`; element identity is index equality.
* Timer handles are the natural numbers handed out by a counter, as in a
  browser; a handle is never reused.
* Touch coordinates are JavaScript numbers.  The model covers the integer-valued
  ones; `touchStartX - 50` and `touchStartX + 50` are rounded to the nearest
  double (`roundDouble`).
* `e.preventDefault()` and the image preloading have no effect on the tracked
  state and are left out; the carousel container and the two buttons exist.
-/

namespace HeroCarousel

/-! ## Constants (lines 3-5) -/

def FADE_DURATION : Nat := 800

def SLIDE_DURATION : Nat := 4000

def VISIBLE_DURATION : Nat := SLIDE_DURATION - FADE_DURATION

/-! ## The page -/

/-- Inline `style.display` of a slide: not set by the script yet, `'flex'` or `'none'`. -/
inductive Display where
  | unset
  | flex
  | none
  deriving DecidableEq, Repr

/-- Inline `style.opacity`: not set by the script yet, `'0'` or `'1'`. -/
inductive Opacity where
  | unset
  | zero
  | one
  deriving DecidableEq, Repr

/-- The `.hero-content` child of a slide: its `aria-hidden` attribute and the inline
opacity of its `h1` and `.hero-buttons` children (`none` when there is no such child). -/
structure Content where
  ariaHidden : Option Bool
  headingOpacity : Option Opacity
  buttonsOpacity : Option Opacity
  deriving DecidableEq, Repr

/-- One `.hero-slide` element; `content` is `none` when it has no `.hero-content` child. -/
structure Slide where
  active : Bool
  leaving : Bool
  display : Display
  opacity : Opacity
  ariaHidden : Option Bool
  content : Option Content
  deriving DecidableEq, Repr

/-- One `.dot` indicator: its `aria-selected` and `tabindex` attributes (`none`: absent). -/
structure Dot where
  ariaSelected : Option Bool
  tabindex : Option Int
  deriving DecidableEq, Repr

/-! ## Script state and timers -/

/-- Value of the variable `slideInterval`: `let slideInterval;` leaves it `undefined`,
`pauseSlideShow` stores `null`, `setTimeout` returns a numeric handle. -/
inductive Handle where
  | undefined
  | null
  | id (n : Nat)
  deriving DecidableEq, Repr

/-- The three closures the script passes to `setTimeout`.
* `reveal index`: lines 106-111, with `nextContent` the content of `slides[index]`;
* `complete currentActive`: lines 115-131, with the captured `currentActive`;
* `advance`: lines 127-129 and 156-158, `() => { nextSlideFunc(); }`. -/
inductive Callback where
  | reveal (index : Nat)
  | complete (currentActive : Option Nat)
  | advance
  deriving DecidableEq, Repr

/-- A scheduled timer: its handle, the time it is due and its callback. -/
structure Timer where
  id : Nat
  due : Nat
  cb : Callback
  deriving DecidableEq, Repr

/-- Script variables (lines 15-19), the tracked page, the pending timers and the clock. -/
structure State where
  slides : List Slide
  dots : List Dot
  slideIndicator : Option String
  carouselTabindex : Option Int
  currentSlide : Nat
  slideInterval : Handle
  isTransitioning : Bool
  touchStartX : Int
  touchEndX : Int
  timers : List Timer
  nextTimerId : Nat
  now : Nat
  deriving DecidableEq, Repr

/-- How a call ends: it returns, or a `TypeError` propagates out of it.  Either way the
mutations made so far stay. -/
inductive Outcome where
  | returned (s : State)
  | threw (s : State)
  deriving DecidableEq, Repr

/-- The state a call leaves behind. -/
def Outcome.state : Outcome → State
  | Outcome.returned s => s
  | Outcome.threw s => s

/-- Sequencing: the rest of the function body runs only if the call returned. -/
def Outcome.andThen (o : Outcome) (f : State → Outcome) : Outcome :=
  match o with
  | Outcome.returned s => f s
  | Outcome.threw s => Outcome.threw s

/-- The call `setTimeout(cb, delay)`: the returned handle is `s.nextTimerId`. -/
def setTimeout (cb : Callback) (delay : Nat) (s : State) : State :=
  { s with
    timers := s.timers ++ [{ id := s.nextTimerId, due := s.now + delay, cb := cb }]
    nextTimerId := s.nextTimerId + 1 }

/-- The call `clearTimeout(h)`: drops the pending timer with that handle, if any. -/
def clearTimeout (h : Handle) (s : State) : State :=
  match h with
  | .id n => { s with timers := s.timers.filter (fun t => t.id != n) }
  | _ => s

/-! ## `updateAriaAttributes` (lines 30-54) -/

/-- Both `setAttribute('aria-hidden', v)` calls of lines 34-35 (or 39-40) on one slide;
without a `.hero-content` child only the first takes effect. -/
def setAriaHidden (v : Bool) (sl : Slide) : Slide :=
  { sl with
    ariaHidden := some v
    content := sl.content.map (fun c => { c with ariaHidden := some v }) }

/-- Slide `k` exists and has a `.hero-content` child. -/
def contentAt (l : List Slide) (k : Nat) : Bool :=
  match l[k]? with
  | some sl => sl.content.isSome
  | none => false

/-- Lines 33-35 (with `v = true`) and 38-40 (with `v = false`) for `slides[k]`:
`slides[k].setAttribute(...)` throws when `slides[k]` is `undefined`, and
`slides[k].querySelector('.hero-content').setAttribute(...)` throws, after the first
attribute is set, when there is no `.hero-content`. -/
def hideOrShow (v : Bool) (k : Nat) (s : State) : Outcome :=
  match s.slides[k]? with
  | none => Outcome.threw s
  | some sl =>
    if sl.content.isSome then
      Outcome.returned { s with slides := s.slides.modify (setAriaHidden v) k }
    else Outcome.threw { s with slides := s.slides.modify (setAriaHidden v) k }

/-- The `dots.forEach` loop of lines 43-47, `index` being the position of the head. -/
def updateDotsFrom (nextIndex : Nat) : Nat → List Dot → List Dot
  | _, [] => []
  | index, dot :: rest =>
    let isSelected := decide (index = nextIndex)
    { dot with
      ariaSelected := some isSelected
      tabindex := some (if isSelected then 0 else -1) } ::
      updateDotsFrom nextIndex (index + 1) rest

/-- The template literal of line 52. -/
def slideIndicatorText (nextIndex total : Nat) : String :=
  "Slide " ++ toString (nextIndex + 1) ++ " of " ++ toString total

/-- Lines 43-53: the dots and the live region. -/
def updateDotsAndIndicator (nextIndex : Nat) (s : State) : State :=
  { s with
    dots := updateDotsFrom nextIndex 0 s.dots
    slideIndicator := s.slideIndicator.map (fun _ => slideIndicatorText nextIndex s.slides.length) }

def updateAriaAttributes (prevIndex : Option Nat) (nextIndex : Nat) (s : State) : Outcome :=
  ((match prevIndex with
    | some p => hideOrShow true p s
    | none => Outcome.returned s).andThen (hideOrShow false nextIndex)).andThen
    (fun s2 => Outcome.returned (updateDotsAndIndicator nextIndex s2))

/-! ## `pauseSlideShow`, `startSlideShow` (lines 153-168) -/

def pauseSlideShow (s : State) : State :=
  if s.slideInterval ≠ Handle.null then
    { clearTimeout s.slideInterval s with slideInterval := Handle.null }
  else s

def startSlideShow (s : State) : State :=
  if s.slideInterval = Handle.null then
    setTimeout Callback.advance VISIBLE_DURATION { s with slideInterval := Handle.id s.nextTimerId }
  else s

/-! ## `showSlide` (lines 57-132) -/

/-- The query `document.querySelector('.hero-slide.active')`, as an index into `slides`. -/
def queryActive : List Slide → Option Nat
  | [] => none
  | sl :: rest => if sl.active then some 0 else (queryActive rest).map (· + 1)

/-- Lines 80-90: `display = 'flex'`, `opacity = '0'`, and, under `if (nextContent)`,
heading and buttons hidden. -/
def prepareSlide (sl : Slide) : Slide :=
  { sl with
    display := Display.flex
    opacity := Opacity.zero
    content := sl.content.map (fun c =>
      { c with
        headingOpacity := c.headingOpacity.map (fun _ => Opacity.zero)
        buttonsOpacity := c.buttonsOpacity.map (fun _ => Opacity.zero) }) }

def addActive (sl : Slide) : Slide := { sl with active := true }

def addLeaving (sl : Slide) : Slide := { sl with leaving := true }

def setOpacityOne (sl : Slide) : Slide := { sl with opacity := Opacity.one }

/-- Lines 107-110. -/
def revealContent (sl : Slide) : Slide :=
  { sl with
    content := sl.content.map (fun c =>
      { c with
        headingOpacity := c.headingOpacity.map (fun _ => Opacity.one)
        buttonsOpacity := c.buttonsOpacity.map (fun _ => Opacity.one) }) }

/-- Lines 118-120. -/
def cleanUp (sl : Slide) : Slide :=
  { sl with active := false, leaving := false, display := Display.none, opacity := Opacity.zero }

/-- Lines 99-101: `if (currentActive) currentActive.classList.add('leaving')`. -/
def markLeaving (currentActive : Option Nat) (slides : List Slide) : List Slide :=
  match currentActive with
  | some a => slides.modify addLeaving a
  | none => slides

/-- Lines 117-121: `if (currentActive) { ... }`. -/
def cleanUpOutgoing (currentActive : Option Nat) (slides : List Slide) : List Slide :=
  match currentActive with
  | some a => slides.modify cleanUp a
  | none => slides

/-- Lines 67-131, reached once `updateAriaAttributes` has returned. -/
def crossfade (idx : Nat) (s2 : State) : State :=
  let currentActive := queryActive s2.slides
  if currentActive = some idx then { s2 with isTransitioning := false }
  else
    let s3 := pauseSlideShow s2
    let slides4 := s3.slides.modify prepareSlide idx
    let slides5 := slides4.modify addActive idx
    let slides6 := markLeaving currentActive slides5
    let slides7 := slides6.modify setOpacityOne idx
    let s7 := { s3 with slides := slides7 }
    let s8 := if contentAt s7.slides idx then setTimeout (Callback.reveal idx) 100 s7 else s7
    setTimeout (Callback.complete currentActive) FADE_DURATION s8

def showSlide (index : Int) (s : State) : Outcome :=
  if s.isTransitioning || decide (index < 0) || decide (index ≥ (s.slides.length : Int)) then
    Outcome.returned s
  else
    let idx := index.toNat
    let prevIndex := s.currentSlide
    let s1 := { s with isTransitioning := true, currentSlide := idx }
    (updateAriaAttributes (some prevIndex) idx s1).andThen
      (fun s2 => Outcome.returned (crossfade idx s2))

/-! ## Directional navigation (lines 134-151) -/

def nextSlide (s : State) : Outcome :=
  showSlide (Int.tmod ((s.currentSlide : Int) + 1) (s.slides.length : Int)) s

def nextSlideFunc (s : State) : Outcome :=
  if !s.isTransitioning then nextSlide s else Outcome.returned s

def prevSlide (s : State) : Outcome :=
  showSlide (Int.tmod ((s.currentSlide : Int) - 1 + (s.slides.length : Int)) (s.slides.length : Int)) s

/-! ## Timer callbacks -/

def runCallback : Callback → State → Outcome
  | Callback.reveal index, s =>
    Outcome.returned { s with slides := s.slides.modify revealContent index }
  | Callback.complete currentActive, s =>
    let s1 := { s with slides := cleanUpOutgoing currentActive s.slides }
    let s2 := { s1 with isTransitioning := false }
    if s2.slideInterval = Handle.null then
      Outcome.returned
        (setTimeout Callback.advance VISIBLE_DURATION { s2 with slideInterval := Handle.id s2.nextTimerId })
    else Outcome.returned s2
  | Callback.advance, s => nextSlideFunc s

/-- The browser runs timer `t`: it stops being pending, the clock is at least `t.due`. -/
def fire (t : Timer) (s : State) : Outcome :=
  runCallback t.cb { s with timers := s.timers.filter (fun u => u.id != t.id), now := max s.now t.due }

/-- The pending timer with handle `id` fires (nothing happens if there is none). -/
def fireTimer (id : Nat) (s : State) : Outcome :=
  match s.timers.find? (fun t => t.id == id) with
  | some t => fire t s
  | none => Outcome.returned s

/-! ## Keyboard and touch handlers (lines 180-221) -/

inductive Key where
  | arrowLeft
  | arrowRight
  | home
  | endKey
  | enter
  | space
  | other
  deriving DecidableEq, Repr

def handleKeyDown (key : Key) (s : State) : Outcome :=
  match key with
  | Key.arrowLeft => prevSlide s
  | Key.arrowRight => nextSlide s
  | Key.home => showSlide 0 s
  | Key.endKey => showSlide ((s.slides.length : Int) - 1) s
  | _ => Outcome.returned s

def handleTouchStart (screenX : Int) (s : State) : State :=
  { s with touchStartX := screenX }

/-- The power of two by which an integer of magnitude `a` has to be scaled down to fit
the 53-bit significand of a double; `fuel` bounds the number of halvings. -/
def quantum : Nat → Nat → Nat
  | 0, _ => 1
  | fuel + 1, a => if a < 2 ^ 53 then 1 else 2 * quantum fuel (a / 2)

/-- The double nearest to the integer `n`, ties to the even significand (IEEE 754
round-to-nearest-even), for `|n| < 2 ^ 1024`.  Integers up to `2 ^ 53` are exact. -/
def roundDouble (n : Int) : Int :=
  let a := n.natAbs
  let q := quantum 1024 a
  let lo := a / q
  let r := a % q
  let m := if 2 * r > q ∨ (2 * r = q ∧ lo % 2 = 1) then lo + 1 else lo
  if n < 0 then -((m * q : Nat) : Int) else ((m * q : Nat) : Int)

/-- JavaScript `a + b` on integer-valued numbers. -/
def jsAdd (a b : Int) : Int := roundDouble (a + b)

/-- JavaScript `a - b` on integer-valued numbers. -/
def jsSub (a b : Int) : Int := roundDouble (a - b)

def swipeThreshold : Int := 50

/-- What `handleSwipe` calls. -/
inductive Nav where
  | next
  | prev
  deriving DecidableEq, Repr

/-- The two comparisons of `handleSwipe` (lines 214-220). -/
def swipeRequest (touchStartX touchEndX : Int) : Option Nav :=
  if touchEndX < jsSub touchStartX swipeThreshold then some Nav.next
  else if touchEndX > jsAdd touchStartX swipeThreshold then some Nav.prev
  else none

def handleSwipe (s : State) : Outcome :=
  match swipeRequest s.touchStartX s.touchEndX with
  | some Nav.next => nextSlide s
  | some Nav.prev => prevSlide s
  | none => Outcome.returned s

def handleTouchEnd (screenX : Int) (s : State) : Outcome :=
  handleSwipe { s with touchEndX := screenX }

/-- The dot listener of lines 245-250. -/
def dotKeyDown (index : Nat) (key : Key) (s : State) : Outcome :=
  if key = Key.enter ∨ key = Key.space then showSlide index s else Outcome.returned s

/-! ## Initialisation (lines 224-265) -/

/-- The page as the markup gives it, with the browser's timer counter and clock at the
moment the script runs. -/
structure View where
  slides : List Slide
  dots : List Dot
  slideIndicator : Option String
  carouselTabindex : Option Int
  nextTimerId : Nat
  now : Nat
  deriving DecidableEq, Repr

/-- The state once lines 8-19 have run: the variables are declared, nothing is scheduled. -/
def declared (v : View) : State :=
  { slides := v.slides
    dots := v.dots
    slideIndicator := v.slideIndicator
    carouselTabindex := v.carouselTabindex
    currentSlide := 0
    slideInterval := Handle.undefined
    isTransitioning := false
    touchStartX := 0
    touchEndX := 0
    timers := []
    nextTimerId := v.nextTimerId
    now := v.now }

/-- The function `init()`.  It completes unless a `TypeError` stops it: with no slide at
all, or no `.hero-content` in slide 0, line 39 or 40 throws before any listener is
attached.  The result is the state when `init()` has returned, `none` if it threw. -/
def init (v : View) : Option State :=
  match updateAriaAttributes none 0 (declared v) with
  | Outcome.threw _ => none
  | Outcome.returned s1 =>
    match showSlide 0 s1 with
    | Outcome.threw _ => none
    | Outcome.returned s2 => some { startSlideShow s2 with carouselTabindex := some 0 }

/-! ## Events -/

/-- What can happen after `init`: the listeners attached in lines 232-257, a pending
timer firing, and time passing.  The `resize` listener (lines 271-277) only writes
`style.height`, which no function of the script reads and `Slide` does not track. -/
inductive Event where
  | prevClick
  | nextClick
  | keydown (key : Key)
  | touchstart (screenX : Int)
  | touchend (screenX : Int)
  | dotClick (index : Nat)
  | dotKeydown (index : Nat) (key : Key)
  | mouseenter
  | mouseleave
  | focusin
  | focusout
  | timer (id : Nat)
  | wait (ms : Nat)
  deriving DecidableEq, Repr

/-- The listener or callback that event `e` runs, with how it ends. -/
def handle (e : Event) (s : State) : Outcome :=
  match e with
  | Event.prevClick => prevSlide s
  | Event.nextClick => nextSlide s
  | Event.keydown key => handleKeyDown key s
  | Event.touchstart x => Outcome.returned (handleTouchStart x s)
  | Event.touchend x => handleTouchEnd x s
  | Event.dotClick index =>
    if index < s.dots.length then showSlide index s else Outcome.returned s
  | Event.dotKeydown index key =>
    if index < s.dots.length then dotKeyDown index key s else Outcome.returned s
  | Event.mouseenter => Outcome.returned (pauseSlideShow s)
  | Event.mouseleave => Outcome.returned (startSlideShow s)
  | Event.focusin => Outcome.returned (pauseSlideShow s)
  | Event.focusout => Outcome.returned (startSlideShow s)
  | Event.timer id => fireTimer id s
  | Event.wait ms => Outcome.returned { s with now := s.now + ms }

/-- The page after event `e`, whether its listener returned or threw. -/
def step (e : Event) (s : State) : State := (handle e s).state

/-- States the page can be in after a completed `init v`.  Timers may fire in any order
and at any moment, which covers every schedule a browser can produce. -/
inductive Reachable (v : View) : State → Prop where
  | init {s0 : State} : init v = some s0 → Reachable v s0
  | step (e : Event) {s : State} : Reachable v s → Reachable v (step e s)

/-- Pending auto-advance timers. -/
def advanceTimers (s : State) : List Timer :=
  s.timers.filter (fun t => decide (t.cb = Callback.advance))


/-! ## Predicates and sample pages used in the statements -/

/-- The state `updateAriaAttributes(prevIndex, nextIndex)` returns when no slide it
touches lacks a `.hero-content`. -/
def ariaUpdated (prevIndex : Option Nat) (nextIndex : Nat) (s : State) : State :=
  updateDotsAndIndicator nextIndex
    { s with
      slides :=
        (match prevIndex with
          | some p => s.slides.modify (setAriaHidden true) p
          | none => s.slides).modify (setAriaHidden false) nextIndex }

/-- A sample slide, with a `.hero-content` holding an `h1` and `.hero-buttons` when
`hasContent` is true. -/
def sampleSlide (active hasContent : Bool) : Slide :=
  { active := active, leaving := false, display := Display.unset, opacity := Opacity.unset
    ariaHidden := none
    content :=
      if hasContent then
        some { ariaHidden := none, headingOpacity := some Opacity.unset
               buttonsOpacity := some Opacity.unset }
      else none }

/-- A page with one dot per slide and a live region, from the list of its slides. -/
def samplePage (slides : List Slide) : View :=
  { slides := slides
    dots := slides.map (fun _ => { ariaSelected := none, tabindex := none })
    slideIndicator := some ""
    carouselTabindex := none
    nextTimerId := 1
    now := 0 }

/-- A page whose slides all have their `.hero-content`; `a` tells which slides the
markup flags `active`. -/
def sampleView (a : List Bool) : View :=
  samplePage (a.map (fun b => sampleSlide b true))

/-- A three-slide page, slide 0 flagged `active`, whose slide 1 has no `.hero-content`. -/
def sampleViewBare : View :=
  samplePage [sampleSlide true true, sampleSlide false false, sampleSlide false true]

/-- Slide `k` exists and carries the class `active`. -/
def activeAt (l : List Slide) (k : Nat) : Bool :=
  match l[k]? with
  | some sl => sl.active
  | none => false

/-- Slide `k` exists and carries the class `leaving`. -/
def leavingAt (l : List Slide) (k : Nat) : Bool :=
  match l[k]? with
  | some sl => sl.leaving
  | none => false

/-- Every slide has a `.hero-content` child. -/
def allContent (l : List Slide) : Prop :=
  ∀ k, k < l.length → contentAt l k = true

/-- The fade window of a transition elapses: the pending content-reveal and
fade-completion callbacks run, in the order they were scheduled. -/
def fadeWindowElapses (s : State) : State :=
  (s.timers.filter (fun t => decide (t.cb ≠ Callback.advance))).foldl
    (fun st t => (fire t st).state) s

/-- One advance: `nextSlide()` called directly (`viaTimer = false`) or by the auto-advance
callback `nextSlideFunc()` (`viaTimer = true`), then the fade window elapses. -/
def advanceOnce (s : State) (viaTimer : Bool) : State :=
  fadeWindowElapses (if viaTimer then nextSlideFunc s else nextSlide s).state

/-- One step back: `prevSlide()`, then the fade window elapses. -/
def retreatOnce (s : State) : State :=
  fadeWindowElapses (prevSlide s).state

/-- Events that end in a `showSlide` call: the prev/next buttons, a key on the carousel,
a touch end, a dot click or key, and an auto-advance timer firing. -/
def isNavigation (s : State) : Event → Bool
  | Event.prevClick => true
  | Event.nextClick => true
  | Event.keydown _ => true
  | Event.touchend _ => true
  | Event.dotClick _ => true
  | Event.dotKeydown _ _ => true
  | Event.timer id =>
    match s.timers.find? (fun t => t.id == id) with
    | some t => decide (t.cb = Callback.advance)
    | none => false
  | _ => false

/-- Timer bookkeeping: handles are distinct and below the counter, and a pending timer is
an auto-advance timer exactly when `slideInterval` holds its handle. -/
def TimersOk (ts : List Timer) (next : Nat) (h : Handle) : Prop :=
  (ts.map Timer.id).Nodup ∧ (∀ t ∈ ts, t.id < next) ∧ (∀ n, h = Handle.id n → n < next) ∧
    (∀ t ∈ ts, t.cb = Callback.advance ↔ h = Handle.id t.id)

/-- No fade-completion callback is pending. -/
def noComplete (ts : List Timer) : Prop :=
  ∀ t ∈ ts, ∀ o, t.cb ≠ Callback.complete o

/-- Slide `k` and its content carry `aria-hidden="false"` (in particular it has a
`.hero-content`). -/
def ariaVisibleAt (l : List Slide) (k : Nat) : Prop :=
  ∀ sl, l[k]? = some sl →
    sl.ariaHidden = some false ∧ sl.content.map Content.ariaHidden = some (some false)

/-- The dots are as `updateAriaAttributes(_, cur)` writes them. -/
def dotsSelect (dots : List Dot) (cur : Nat) : Prop :=
  ∀ j d, dots[j]? = some d →
    d.ariaSelected = some (decide (j = cur)) ∧ d.tabindex = some (if j = cur then 0 else -1)

/-- Accessibility state agrees with `cur`: the dots, the current slide's `aria-hidden`
and the live region are what `updateAriaAttributes(_, cur)` writes. -/
def PageOk (slides : List Slide) (dots : List Dot) (live : Option String) (cur : Nat) : Prop :=
  cur < slides.length ∧ dotsSelect dots cur ∧ ariaVisibleAt slides cur ∧
  (∀ txt, live = some txt → txt = slideIndicatorText cur slides.length)

/-- Class flags agree with the transition state: at rest only the current slide is
`active` and no completion callback is pending; during a transition exactly one
completion callback is pending and the active slides are the current one and the
outgoing one that callback captured. -/
def ActiveOk (slides : List Slide) (cur : Nat) (isT : Bool) (ts : List Timer) : Prop :=
  (isT = false → noComplete ts ∧ ∀ k, activeAt slides k = true ↔ k = cur) ∧
  (isT = true →
    ∃ t o, t ∈ ts ∧ t.cb = Callback.complete o ∧
      (∀ u ∈ ts, ∀ o', u.cb = Callback.complete o' → u = t) ∧ o ≠ some cur ∧
      ∀ k, activeAt slides k = true ↔ (k = cur ∨ o = some k))

/-- A `showSlide` call threw after setting `isTransitioning`: the flag is true and no
completion callback is pending to clear it. -/
def Stuck (s : State) : Prop :=
  s.isTransitioning = true ∧ noComplete s.timers

/-- Invariant of the reachable states, for any markup. -/
structure Inv (v : View) (s : State) : Prop where
  slides_length : s.slides.length = v.slides.length
  dots_length : s.dots.length = v.dots.length
  timers : TimersOk s.timers s.nextTimerId s.slideInterval

/-- The content-reveal timer that an accepted `showSlide(i)` schedules from state `s`
(line 106, delay 100). -/
def revealTimer (s : State) (i : Nat) : Timer :=
  { id := s.nextTimerId, due := s.now + 100, cb := Callback.reveal i }

/-- The fade-completion timer that an accepted `showSlide` schedules from state `s`
(line 115, delay `FADE_DURATION`), `o` being the captured `currentActive`. -/
def completeTimer (s : State) (o : Option Nat) : Timer :=
  { id := s.nextTimerId + 1, due := s.now + FADE_DURATION, cb := Callback.complete o }

/-- At most one slide carries the class `active`. -/
def atMostOneActive (l : List Slide) : Prop :=
  ∀ j k, activeAt l j = true → activeAt l k = true → j = k

/-- The state in which `init` returns on page `v` when nothing throws. -/
def started (v : View) : State :=
  { startSlideShow (showSlide 0 (ariaUpdated none 0 (declared v))).state with
    carouselTabindex := some 0 }

/-- The state `init` leaves on the sample page whose markup flags slide 0 `active`. -/
def sampleStart : State := started (sampleView [true, false, false])

/-- The state `init` leaves on the sample page whose markup flags no slide `active`. -/
def sampleStartBlank : State := started (sampleView [false, false, false])

/-- The state `init` leaves on a page with a single slide, flagged `active`. -/
def sampleStartSingle : State := started (sampleView [true])

/-- The single-slide page after the pointer entered and left the carousel and the
auto-advance timer that `mouseleave` scheduled (handle 1) has fired. -/
def sampleAfterFire : State :=
  step (Event.timer 1) (step Event.mouseleave (step Event.mouseenter sampleStartSingle))

/-- The state `init` leaves on a three-slide page whose markup flags slides 0 and 1
`active`. -/
def sampleStartTwoActive : State := started (sampleView [true, true, false])

/-- That page after a click on dot 2 and the two callbacks of the transition (reveal,
handle 1; completion, handle 2): slide 2 is current, slides 1 and 2 are `active`. -/
def sampleTwoActive : State :=
  step (Event.timer 2) (step (Event.timer 1) (step (Event.dotClick 2) sampleStartTwoActive))

/-- The state `init` leaves on `sampleViewBare`. -/
def sampleStartBare : State := started sampleViewBare

/-- What holds in every state reachable on a page whose markup flags at most one slide
`active`: either a `showSlide` call threw and left the carousel stuck, or the
accessibility state and the class flags are consistent with `currentSlide`. -/
def RestOk (s : State) : Prop :=
  Stuck s ∨
    (PageOk s.slides s.dots s.slideIndicator s.currentSlide ∧
      ActiveOk s.slides s.currentSlide s.isTransitioning s.timers)

/-- The page after the events `es`, in order. -/
def run (es : List Event) (s : State) : State :=
  es.foldl (fun st e => step e st) s

/-- State `s'` is stuck and shows what `s` showed: same `currentSlide`, same dots and live
region, same `active` flags. -/
def StuckLike (s s' : State) : Prop :=
  Stuck s' ∧ s'.currentSlide = s.currentSlide ∧ s'.dots = s.dots ∧
    s'.slideIndicator = s.slideIndicator ∧ s'.slides.length = s.slides.length ∧
    (∀ k, activeAt s'.slides k = activeAt s.slides k) ∧
    (∀ k, contentAt s'.slides k = contentAt s.slides k)

/-- The state after a click on the next button on `sampleViewBare`, whose slide 1 has no
`.hero-content`. -/
def sampleBareNext : State := step Event.nextClick sampleStartBare

/-! ## Basic facts about the page operations -/

theorem length_updateDotsFrom (n k : Nat) (l : List Dot) :
    (updateDotsFrom n k l).length = l.length := by
  induction l generalizing k with
  | nil => rfl
  | cons d rest ih => simp [updateDotsFrom, ih]

theorem getElem?_updateDotsFrom (n k : Nat) (l : List Dot) (j : Nat) :
    (updateDotsFrom n k l)[j]? =
      (l[j]?).map (fun d => { d with
        ariaSelected := some (decide (k + j = n))
        tabindex := some (if decide (k + j = n) then 0 else -1) }) := by
  induction l generalizing k j with
  | nil => simp [updateDotsFrom]
  | cons d rest ih =>
    cases j with
    | zero => simp [updateDotsFrom]
    | succ j =>
      simp only [updateDotsFrom, List.getElem?_cons_succ, ih]
      have : k + 1 + j = k + (j + 1) := by omega
      simp [this]

theorem queryActive_modify (f : Slide → Slide) (hf : ∀ sl, (f sl).active = sl.active)
    (l : List Slide) (i : Nat) : queryActive (l.modify f i) = queryActive l := by
  induction l generalizing i with
  | nil => cases i <;> rfl
  | cons sl rest ih =>
    cases i with
    | zero => rw [List.modify_zero_cons]; simp only [queryActive, hf]
    | succ n => rw [List.modify_succ_cons]; simp only [queryActive, ih]

theorem contentAt_modify (f : Slide → Slide) (hf : ∀ sl, (f sl).content.isSome = sl.content.isSome)
    (l : List Slide) (n k : Nat) : contentAt (l.modify f n) k = contentAt l k := by
  unfold contentAt
  rw [List.getElem?_modify]
  cases l[k]? with
  | none => rfl
  | some a =>
    simp only [Option.map_eq_map, Option.map_some']
    split <;> simp [hf]

theorem setAriaHidden_content (v : Bool) (sl : Slide) :
    (setAriaHidden v sl).content.isSome = sl.content.isSome := by
  cases h : sl.content <;> simp [setAriaHidden, h]

theorem contentAt_lt {l : List Slide} {k : Nat} (h : contentAt l k = true) : k < l.length := by
  by_contra hk
  have : l[k]? = none := List.getElem?_eq_none (by omega)
  simp [contentAt, this] at h

/-- The helper `hideOrShow` always performs the slide's own `setAttribute`; it returns exactly when
the slide has a `.hero-content`. -/
theorem hideOrShow_eq (v : Bool) (k : Nat) (s : State) :
    hideOrShow v k s =
      if contentAt s.slides k then
        Outcome.returned { s with slides := s.slides.modify (setAriaHidden v) k }
      else Outcome.threw { s with slides := s.slides.modify (setAriaHidden v) k } := by
  unfold hideOrShow contentAt
  cases h : s.slides[k]? with
  | none =>
    have hk : s.slides.length ≤ k := by
      by_contra hlt
      rw [List.getElem?_eq_getElem (by omega)] at h
      exact absurd h (by simp)
    have : s.slides.modify (setAriaHidden v) k = s.slides := by
      apply List.ext_getElem?
      intro n
      rw [List.getElem?_modify]
      by_cases hn : k = n
      · subst hn; simp [h]
      · cases s.slides[n]? <;> simp [hn]
    simp [this]
  | some sl => rfl

theorem updateAria_returned (p : Option Nat) (n : Nat) (s : State)
    (hp : ∀ q, p = some q → contentAt s.slides q = true) (hn : contentAt s.slides n = true) :
    updateAriaAttributes p n s = Outcome.returned (ariaUpdated p n s) := by
  unfold updateAriaAttributes ariaUpdated
  cases p with
  | none =>
    simp only [Outcome.andThen, hideOrShow_eq, hn, if_true]
  | some q =>
    have hq := hp q rfl
    simp only [Outcome.andThen, hideOrShow_eq, hq, if_true,
      contentAt_modify _ (setAriaHidden_content true), hn]

theorem activeAt_modify (f : Slide → Slide) (l : List Slide) (n k : Nat) :
    activeAt (l.modify f n) k =
      match l[k]? with
      | some a => if n = k then (f a).active else a.active
      | none => false := by
  unfold activeAt
  rw [List.getElem?_modify]
  cases l[k]? with
  | none => rfl
  | some a =>
    simp only [Option.map_eq_map, Option.map_some']
    split <;> rfl

theorem activeAt_modify_same (f : Slide → Slide) (hf : ∀ a, (f a).active = a.active)
    (l : List Slide) (n k : Nat) : activeAt (l.modify f n) k = activeAt l k := by
  rw [activeAt_modify]
  unfold activeAt
  cases l[k]? with
  | none => rfl
  | some a => simp [hf]

/-- Whatever `updateAriaAttributes` does, returning or throwing, it leaves the script
variables, the timers, the number of slides, their classes and their children alone. -/
theorem updateAria_state (p : Option Nat) (n : Nat) (s : State) :
    (updateAriaAttributes p n s).state.timers = s.timers ∧
    (updateAriaAttributes p n s).state.nextTimerId = s.nextTimerId ∧
    (updateAriaAttributes p n s).state.slideInterval = s.slideInterval ∧
    (updateAriaAttributes p n s).state.currentSlide = s.currentSlide ∧
    (updateAriaAttributes p n s).state.isTransitioning = s.isTransitioning ∧
    (updateAriaAttributes p n s).state.now = s.now ∧
    (updateAriaAttributes p n s).state.slides.length = s.slides.length ∧
    (updateAriaAttributes p n s).state.dots.length = s.dots.length ∧
    (∀ k, activeAt (updateAriaAttributes p n s).state.slides k = activeAt s.slides k) ∧
    (∀ k, contentAt (updateAriaAttributes p n s).state.slides k = contentAt s.slides k) := by
  have ha : ∀ v (sl : Slide), (setAriaHidden v sl).active = sl.active := fun _ _ => rfl
  unfold updateAriaAttributes
  cases p with
  | none =>
    by_cases hn : contentAt s.slides n = true
    · simp [Outcome.andThen, hideOrShow_eq, hn, Outcome.state, updateDotsAndIndicator,
        length_updateDotsFrom, activeAt_modify_same _ (ha false),
        contentAt_modify _ (setAriaHidden_content false)]
    · simp [Outcome.andThen, hideOrShow_eq, hn, Outcome.state,
        activeAt_modify_same _ (ha false), contentAt_modify _ (setAriaHidden_content false)]
  | some q =>
    by_cases hq : contentAt s.slides q = true
    · by_cases hn : contentAt s.slides n = true
      · simp [Outcome.andThen, hideOrShow_eq, hq, hn, Outcome.state, updateDotsAndIndicator,
          length_updateDotsFrom, activeAt_modify_same _ (ha false),
          activeAt_modify_same _ (ha true), contentAt_modify _ (setAriaHidden_content false),
          contentAt_modify _ (setAriaHidden_content true)]
      · simp [Outcome.andThen, hideOrShow_eq, hq, hn, Outcome.state,
          activeAt_modify_same _ (ha false),
          activeAt_modify_same _ (ha true), contentAt_modify _ (setAriaHidden_content false),
          contentAt_modify _ (setAriaHidden_content true)]
    · simp [Outcome.andThen, hideOrShow_eq, hq, Outcome.state,
        activeAt_modify_same _ (ha true), contentAt_modify _ (setAriaHidden_content true)]

/-- A throwing call of `updateAriaAttributes` has not reached the dots and the live
region, and some slide it touched has no `.hero-content`. -/
theorem updateAria_threw (p : Option Nat) (n : Nat) (s s' : State)
    (h : updateAriaAttributes p n s = Outcome.threw s') :
    s'.dots = s.dots ∧ s'.slideIndicator = s.slideIndicator ∧
    ((∃ q, p = some q ∧ contentAt s.slides q = false) ∨ contentAt s.slides n = false) := by
  unfold updateAriaAttributes at h
  cases p with
  | none =>
    by_cases hn : contentAt s.slides n = true
    · simp [Outcome.andThen, hideOrShow_eq, hn] at h
    · simp only [Outcome.andThen, hideOrShow_eq, hn, Bool.false_eq_true, if_false,
        Outcome.threw.injEq] at h
      subst h
      exact ⟨rfl, rfl, Or.inr (by simpa using hn)⟩
  | some q =>
    by_cases hq : contentAt s.slides q = true
    · by_cases hn : contentAt s.slides n = true
      · simp [Outcome.andThen, hideOrShow_eq, hq, hn,
          contentAt_modify _ (setAriaHidden_content true)] at h
      · simp only [Outcome.andThen, hideOrShow_eq, hq, hn, if_true, Bool.false_eq_true,
          if_false, contentAt_modify _ (setAriaHidden_content true), Outcome.threw.injEq] at h
        subst h
        exact ⟨rfl, rfl, Or.inr (by simpa using hn)⟩
    · simp only [Outcome.andThen, hideOrShow_eq, hq, Bool.false_eq_true, if_false,
        Outcome.threw.injEq] at h
      subst h
      exact ⟨rfl, rfl, Or.inl ⟨q, rfl, by simpa using hq⟩⟩

theorem state_returned (s : State) : (Outcome.returned s).state = s := rfl

theorem state_threw (s : State) : (Outcome.threw s).state = s := rfl

theorem queryActive_ariaUpdated (p : Option Nat) (n : Nat) (s : State) :
    queryActive (ariaUpdated p n s).slides = queryActive s.slides := by
  cases p <;>
    simp [ariaUpdated, updateDotsAndIndicator, queryActive_modify, setAriaHidden]

theorem ariaUpdated_rest (p : Option Nat) (n : Nat) (s : State) :
    (ariaUpdated p n s).timers = s.timers ∧
    (ariaUpdated p n s).nextTimerId = s.nextTimerId ∧
    (ariaUpdated p n s).slideInterval = s.slideInterval ∧
    (ariaUpdated p n s).currentSlide = s.currentSlide ∧
    (ariaUpdated p n s).isTransitioning = s.isTransitioning ∧
    (ariaUpdated p n s).now = s.now ∧
    (ariaUpdated p n s).dots = updateDotsFrom n 0 s.dots ∧
    (ariaUpdated p n s).slides.length = s.slides.length := by
  cases p <;> simp [ariaUpdated, updateDotsAndIndicator]

theorem contentAt_ariaUpdated (p : Option Nat) (n : Nat) (s : State) (k : Nat) :
    contentAt (ariaUpdated p n s).slides k = contentAt s.slides k := by
  cases p <;>
    simp [ariaUpdated, updateDotsAndIndicator, contentAt_modify _ (setAriaHidden_content false),
      contentAt_modify _ (setAriaHidden_content true)]

theorem showSlide_rejected (i : Int) (s : State)
    (h : s.isTransitioning = true ∨ i < 0 ∨ (s.slides.length : Int) ≤ i) :
    showSlide i s = Outcome.returned s := by
  unfold showSlide
  rw [if_pos]
  rcases h with h | h | h <;> simp [h]

theorem showSlide_accepted (i : Int) (s : State) (hT : s.isTransitioning = false)
    (h0 : 0 ≤ i) (hN : i < (s.slides.length : Int)) :
    showSlide i s =
      (updateAriaAttributes (some s.currentSlide) i.toNat
        { s with isTransitioning := true, currentSlide := i.toNat }).andThen
        (fun s2 => Outcome.returned (crossfade i.toNat s2)) := by
  unfold showSlide
  rw [if_neg (by simp [hT]; omega)]

/-- An accepted `showSlide(i)` throws when the current slide or slide `i` has no
`.hero-content`: `isTransitioning` and `currentSlide` are already written, and nothing
else but `aria-hidden` attributes of slides has changed. -/
theorem showSlide_threw (i : Int) (s : State) (hT : s.isTransitioning = false)
    (h0 : 0 ≤ i) (hN : i < (s.slides.length : Int))
    (hc : contentAt s.slides s.currentSlide = false ∨ contentAt s.slides i.toNat = false) :
    ∃ s', showSlide i s = Outcome.threw s' ∧
      s'.isTransitioning = true ∧ s'.currentSlide = i.toNat ∧ s'.timers = s.timers ∧
      s'.nextTimerId = s.nextTimerId ∧ s'.slideInterval = s.slideInterval ∧
      s'.dots = s.dots ∧ s'.slideIndicator = s.slideIndicator ∧
      s'.slides.length = s.slides.length ∧
      (∀ k, activeAt s'.slides k = activeAt s.slides k) ∧
      (∀ k, contentAt s'.slides k = contentAt s.slides k) := by
  rw [showSlide_accepted i s hT h0 hN]
  obtain ⟨a1, a2, a3, a4, a5, _, a7, _, a9, a10⟩ := updateAria_state (some s.currentSlide) i.toNat
    { s with isTransitioning := true, currentSlide := i.toNat }
  cases hu : updateAriaAttributes (some s.currentSlide) i.toNat
      { s with isTransitioning := true, currentSlide := i.toNat } with
  | returned s2 =>
    exfalso
    by_cases hh : contentAt s.slides s.currentSlide = true ∧ contentAt s.slides i.toNat = true
    · rcases hc with hc | hc
      · rw [hh.1] at hc; exact absurd hc (by simp)
      · rw [hh.2] at hc; exact absurd hc (by simp)
    · unfold updateAriaAttributes at hu
      by_cases hq : contentAt s.slides s.currentSlide = true
      · have hn : ¬ contentAt s.slides i.toNat = true := fun h => hh ⟨hq, h⟩
        simp [Outcome.andThen, hideOrShow_eq, hq, hn,
          contentAt_modify _ (setAriaHidden_content true)] at hu
      · simp [Outcome.andThen, hideOrShow_eq, hq] at hu
  | threw s' =>
    rw [hu] at a1 a2 a3 a4 a5 a7 a9 a10
    simp only [state_threw] at a1 a2 a3 a4 a5 a7 a9 a10
    obtain ⟨b1, b2, _⟩ := updateAria_threw _ _ _ _ hu
    exact ⟨s', rfl, a5, a4, a1, a2, a3, b1, b2, a7, a9, a10⟩

theorem contentAt_markLeaving (o : Option Nat) (l : List Slide) (k : Nat) :
    contentAt (markLeaving o l) k = contentAt l k := by
  cases o with
  | none => rfl
  | some a => exact contentAt_modify addLeaving (fun _ => rfl) l a k

theorem prepareSlide_content (sl : Slide) :
    (prepareSlide sl).content.isSome = sl.content.isSome := by
  cases h : sl.content <;> simp [prepareSlide, h]

theorem revealContent_content (sl : Slide) :
    (revealContent sl).content.isSome = sl.content.isSome := by
  cases h : sl.content <;> simp [revealContent, h]

theorem pause_slideInterval (s : State) : (pauseSlideShow s).slideInterval = Handle.null := by
  unfold pauseSlideShow
  split
  · rfl
  · rename_i h; simpa using h

theorem pause_timers (s : State) :
    (pauseSlideShow s).timers =
      match s.slideInterval with
      | Handle.id n => s.timers.filter (fun t => t.id != n)
      | _ => s.timers := by
  unfold pauseSlideShow clearTimeout
  cases h : s.slideInterval <;> simp

theorem pause_rest (s : State) :
    (pauseSlideShow s).slides = s.slides ∧ (pauseSlideShow s).dots = s.dots ∧
    (pauseSlideShow s).slideIndicator = s.slideIndicator ∧
    (pauseSlideShow s).currentSlide = s.currentSlide ∧
    (pauseSlideShow s).isTransitioning = s.isTransitioning ∧
    (pauseSlideShow s).nextTimerId = s.nextTimerId ∧ (pauseSlideShow s).now = s.now := by
  unfold pauseSlideShow clearTimeout
  cases h : s.slideInterval <;> simp

theorem start_of_null (s : State) (h : s.slideInterval = Handle.null) :
    startSlideShow s =
      { s with
        slideInterval := Handle.id s.nextTimerId
        timers := s.timers ++
          [{ id := s.nextTimerId, due := s.now + VISIBLE_DURATION, cb := Callback.advance }]
        nextTimerId := s.nextTimerId + 1 } := by
  unfold startSlideShow setTimeout
  rw [if_pos h]

theorem start_of_not_null (s : State) (h : s.slideInterval ≠ Handle.null) :
    startSlideShow s = s := by
  unfold startSlideShow
  rw [if_neg h]

theorem showSlide_same (i : Int) (s : State) (hT : s.isTransitioning = false)
    (h0 : 0 ≤ i) (hN : i < (s.slides.length : Int))
    (hcc : contentAt s.slides s.currentSlide = true) (hci : contentAt s.slides i.toNat = true)
    (hq : queryActive s.slides = some i.toNat) :
    showSlide i s =
      Outcome.returned
        { ariaUpdated (some s.currentSlide) i.toNat
            { s with isTransitioning := true, currentSlide := i.toNat } with
          isTransitioning := false } := by
  rw [showSlide_accepted i s hT h0 hN,
    updateAria_returned (some s.currentSlide) i.toNat
      { s with isTransitioning := true, currentSlide := i.toNat }
      (by intro q hq'; cases hq'; exact hcc) hci]
  simp only [Outcome.andThen, crossfade, queryActive_ariaUpdated, hq, if_true]

theorem showSlide_change (i : Int) (s : State) (hT : s.isTransitioning = false)
    (h0 : 0 ≤ i) (hN : i < (s.slides.length : Int))
    (hcc : contentAt s.slides s.currentSlide = true) (hci : contentAt s.slides i.toNat = true)
    (hq : queryActive s.slides ≠ some i.toNat) :
    showSlide i s =
      Outcome.returned
      (setTimeout (Callback.complete (queryActive s.slides)) FADE_DURATION
        (setTimeout (Callback.reveal i.toNat) 100
          { pauseSlideShow (ariaUpdated (some s.currentSlide) i.toNat
              { s with isTransitioning := true, currentSlide := i.toNat }) with
            slides :=
              (markLeaving (queryActive s.slides)
                (((pauseSlideShow (ariaUpdated (some s.currentSlide) i.toNat
                  { s with isTransitioning := true, currentSlide := i.toNat })).slides.modify
                    prepareSlide i.toNat).modify addActive i.toNat)).modify
                setOpacityOne i.toNat })) := by
  rw [showSlide_accepted i s hT h0 hN,
    updateAria_returned (some s.currentSlide) i.toNat
      { s with isTransitioning := true, currentSlide := i.toNat }
      (by intro q hq'; cases hq'; exact hcc) hci]
  have hcont : contentAt
      ((markLeaving (queryActive s.slides)
        (((pauseSlideShow (ariaUpdated (some s.currentSlide) i.toNat
          { s with isTransitioning := true, currentSlide := i.toNat })).slides.modify
            prepareSlide i.toNat).modify addActive i.toNat)).modify
        setOpacityOne i.toNat) i.toNat = true := by
    rw [contentAt_modify setOpacityOne (fun _ => rfl), contentAt_markLeaving,
      contentAt_modify addActive (fun _ => rfl), contentAt_modify prepareSlide prepareSlide_content,
      (pause_rest _).1, contentAt_ariaUpdated]
    exact hci
  simp only [Outcome.andThen, crossfade, queryActive_ariaUpdated, hq, if_false, hcont, if_true]

/-! ## C2: out-of-range indices -/

/-- C2: `showSlide(i)` with `i < 0` or `i ≥ N` returns, leaving the state it was given:
script variables, timers, and every flag of every slide and indicator are unchanged. -/
theorem showSlide_out_of_range (s : State) (i : Int)
    (h : i < 0 ∨ (s.slides.length : Int) ≤ i) : showSlide i s = Outcome.returned s :=
  showSlide_rejected i s (Or.inr h)

theorem showSlide_out_of_range_witness :
    ((3 : Int) < 0 ∨ (((declared (sampleView [true, false, false])).slides.length : Nat) : Int) ≤ 3) ∧
      showSlide 3 (declared (sampleView [true, false, false])) =
        Outcome.returned (declared (sampleView [true, false, false])) :=
  ⟨Or.inr (by decide), showSlide_out_of_range _ 3 (Or.inr (by decide))⟩

/-! ## C10: the swipe threshold -/

theorem roundDouble_exact (n : Int) (h : n.natAbs ≤ 2 ^ 53) : roundDouble n = n := by
  rcases Nat.lt_or_ge n.natAbs (2 ^ 53) with hlt | hge
  · unfold roundDouble
    have hq : quantum 1024 n.natAbs = 1 := by
      show (if n.natAbs < 2 ^ 53 then 1 else 2 * quantum 1023 (n.natAbs / 2)) = 1
      rw [if_pos hlt]
    simp only [hq, Nat.div_one, Nat.mod_one, Nat.mul_zero, Nat.mul_one]
    have hm : (if 0 > 1 ∨ (0 = 1 ∧ n.natAbs % 2 = 1) then n.natAbs + 1 else n.natAbs) = n.natAbs := by
      rw [if_neg (by omega)]
    rw [hm]
    split
    · omega
    · omega
  · have ha : n.natAbs = 2 ^ 53 := by omega
    rcases Int.natAbs_eq n with hn | hn
    · rw [hn, ha]; decide
    · rw [hn, ha]; decide

/-- C10, amended: for integer touch coordinates with `|startX| ≤ 2 ^ 53 - 50` (so that
`startX - 50` and `startX + 50` are exact in double arithmetic), between `touchstart` at
`startX` and `touchend` at `endX`, `handleSwipe` calls `nextSlide` exactly when
`endX - startX < -50`, `prevSlide` exactly when `endX - startX > 50`, and nothing when the
difference lies in `[-50, 50]`; the touch handlers store the coordinates and dispatch on
that decision alone. -/
theorem handleSwipe_threshold (startX endX : Int)
    (hlo : -(2 ^ 53 - 50) ≤ startX) (hhi : startX ≤ 2 ^ 53 - 50) :
    (swipeRequest startX endX = some Nav.next ↔ endX - startX < -50) ∧
    (swipeRequest startX endX = some Nav.prev ↔ endX - startX > 50) ∧
    (swipeRequest startX endX = none ↔ -50 ≤ endX - startX ∧ endX - startX ≤ 50) ∧
    (∀ s : State,
      handleTouchEnd endX (handleTouchStart startX s) =
        match swipeRequest startX endX with
        | some Nav.next => nextSlide { s with touchStartX := startX, touchEndX := endX }
        | some Nav.prev => prevSlide { s with touchStartX := startX, touchEndX := endX }
        | none => Outcome.returned { s with touchStartX := startX, touchEndX := endX }) ∧
    swipeRequest startX (startX - 60) = some Nav.next ∧
    swipeRequest startX (startX + 60) = some Nav.prev ∧
    swipeRequest startX (startX + 30) = none ∧
    swipeRequest startX (startX - 30) = none ∧
    swipeRequest startX (startX + 50) = none ∧
    swipeRequest startX (startX - 50) = none := by
  have hsub : jsSub startX swipeThreshold = startX - 50 :=
    roundDouble_exact _ (by unfold swipeThreshold; omega)
  have hadd : jsAdd startX swipeThreshold = startX + 50 :=
    roundDouble_exact _ (by unfold swipeThreshold; omega)
  have key : ∀ e : Int, swipeRequest startX e =
      if e < startX - 50 then some Nav.next else if e > startX + 50 then some Nav.prev else none := by
    intro e
    unfold swipeRequest
    rw [hsub, hadd]
  refine ⟨?_, ?_, ?_, ?_, ?_, ?_, ?_, ?_, ?_, ?_⟩
  · rw [key]; split_ifs <;> simp <;> omega
  · rw [key]; split_ifs <;> simp <;> omega
  · rw [key]; split_ifs <;> simp <;> omega
  · intro s; rfl
  · rw [key, if_pos (by omega)]
  · rw [key, if_neg (by omega), if_pos (by omega)]
  · rw [key, if_neg (by omega), if_neg (by omega)]
  · rw [key, if_neg (by omega), if_neg (by omega)]
  · rw [key, if_neg (by omega), if_neg (by omega)]
  · rw [key, if_neg (by omega), if_neg (by omega)]

theorem handleSwipe_threshold_witness :
    (-(2 ^ 53 - 50) ≤ (100 : Int) ∧ (100 : Int) ≤ 2 ^ 53 - 50) ∧
    (swipeRequest 100 160 = some Nav.prev ↔ (160 : Int) - 100 > 50) :=
  ⟨⟨by decide, by decide⟩, (handleSwipe_threshold 100 160 (by decide) (by decide)).2.1⟩

/-- C10 as stated fails beyond `2 ^ 53`: the coordinates `2 ^ 54 + 4` and `2 ^ 54 + 56` are
doubles, their difference is 52, yet `touchStartX + 50` rounds to `2 ^ 54 + 56` and
`handleSwipe` calls nothing. -/
theorem handleSwipe_large_coordinates :
    roundDouble (2 ^ 54 + 4) = 2 ^ 54 + 4 ∧ roundDouble (2 ^ 54 + 56) = 2 ^ 54 + 56 ∧
    ((2 : Int) ^ 54 + 56) - (2 ^ 54 + 4) > 50 ∧
    jsAdd (2 ^ 54 + 4) swipeThreshold = 2 ^ 54 + 56 ∧
    swipeRequest (2 ^ 54 + 4) (2 ^ 54 + 56) = none ∧
    ¬ (swipeRequest (2 ^ 54 + 4) (2 ^ 54 + 56) = some Nav.prev ↔
        ((2 : Int) ^ 54 + 56) - (2 ^ 54 + 4) > 50) := by
  refine ⟨by decide, by decide, by decide, by decide, by decide, ?_⟩
  intro h
  have := h.mpr (by decide)
  revert this
  decide

/-! ## Timer bookkeeping is preserved -/


theorem TimersOk.filter {ts : List Timer} {next : Nat} {h : Handle}
    (ok : TimersOk ts next h) (p : Timer → Bool) : TimersOk (ts.filter p) next h := by
  obtain ⟨nd, fr, hf, iff⟩ := ok
  refine ⟨?_, ?_, hf, ?_⟩
  · exact (List.filter_sublist ts).map Timer.id |>.nodup nd
  · intro t ht; exact fr t (List.mem_of_mem_filter ht)
  · intro t ht; exact iff t (List.mem_of_mem_filter ht)

theorem timersOk_pause (s : State) (ok : TimersOk s.timers s.nextTimerId s.slideInterval) :
    TimersOk (pauseSlideShow s).timers (pauseSlideShow s).nextTimerId
      (pauseSlideShow s).slideInterval := by
  obtain ⟨nd, fr, hf, iff⟩ := ok
  rw [pause_slideInterval, pause_timers, (pause_rest s).2.2.2.2.2.1]
  cases h : s.slideInterval with
  | undefined =>
    refine ⟨nd, fr, by simp, ?_⟩
    intro t ht
    have := iff t ht
    simp [h] at this ⊢
    exact this
  | null =>
    refine ⟨nd, fr, by simp, ?_⟩
    intro t ht
    have := iff t ht
    simp [h] at this ⊢
    exact this
  | id n =>
    refine ⟨(List.filter_sublist s.timers).map Timer.id |>.nodup nd,
      fun t ht => fr t (List.mem_of_mem_filter ht), by simp, ?_⟩
    intro t ht
    rw [List.mem_filter] at ht
    have := iff t ht.1
    have hne : t.id ≠ n := by simpa using ht.2
    simp only [h, Handle.id.injEq] at this
    simp only [reduceCtorEq, iff_false]
    intro hc
    exact hne (this.mp hc).symm

theorem TimersOk.schedule {ts : List Timer} {next : Nat} {h : Handle}
    (ok : TimersOk ts next h) (due : Nat) (cb : Callback) (hcb : cb ≠ Callback.advance) :
    TimersOk (ts ++ [{ id := next, due := due, cb := cb }]) (next + 1) h := by
  obtain ⟨nd, fr, hf, iff⟩ := ok
  refine ⟨?_, ?_, ?_, ?_⟩
  · rw [List.map_append, List.nodup_append]
    refine ⟨nd, by simp, ?_⟩
    intro a ha hb
    simp only [List.map_cons, List.map_nil, List.mem_singleton] at hb
    rw [List.mem_map] at ha
    obtain ⟨t, ht, rfl⟩ := ha
    have := fr t ht
    omega
  · intro t ht
    rw [List.mem_append, List.mem_singleton] at ht
    rcases ht with ht | rfl
    · have := fr t ht; omega
    · simp
  · intro n hn; have := hf n hn; omega
  · intro t ht
    rw [List.mem_append, List.mem_singleton] at ht
    rcases ht with ht | rfl
    · exact iff t ht
    · simp only [hcb, false_iff]
      intro hc
      have := hf next hc
      omega

theorem TimersOk.scheduleAdvance {ts : List Timer} {next : Nat}
    (ok : TimersOk ts next Handle.null) (due : Nat) :
    TimersOk (ts ++ [{ id := next, due := due, cb := Callback.advance }]) (next + 1)
      (Handle.id next) := by
  obtain ⟨nd, fr, _, iff⟩ := ok
  refine ⟨?_, ?_, ?_, ?_⟩
  · rw [List.map_append, List.nodup_append]
    refine ⟨nd, by simp, ?_⟩
    intro a ha hb
    simp only [List.map_cons, List.map_nil, List.mem_singleton] at hb
    rw [List.mem_map] at ha
    obtain ⟨t, ht, rfl⟩ := ha
    have := fr t ht
    omega
  · intro t ht
    rw [List.mem_append, List.mem_singleton] at ht
    rcases ht with ht | rfl
    · have := fr t ht; omega
    · simp
  · intro n hn
    simp only [Handle.id.injEq] at hn
    omega
  · intro t ht
    rw [List.mem_append, List.mem_singleton] at ht
    rcases ht with ht | rfl
    · have h1 := iff t ht
      have h2 := fr t ht
      simp only [reduceCtorEq, iff_false] at h1
      simp only [h1, Handle.id.injEq, false_iff]
      omega
    · simp


theorem timersOk_showSlide (i : Int) (s : State)
    (ok : TimersOk s.timers s.nextTimerId s.slideInterval) :
    TimersOk (showSlide i s).state.timers (showSlide i s).state.nextTimerId
      (showSlide i s).state.slideInterval := by
  by_cases hrej : s.isTransitioning = true ∨ i < 0 ∨ (s.slides.length : Int) ≤ i
  · rw [showSlide_rejected i s hrej]; exact ok
  · simp only [not_or, Bool.not_eq_true, not_lt, not_le] at hrej
    obtain ⟨hT, h0, hN⟩ := hrej
    by_cases hc : contentAt s.slides s.currentSlide = true ∧ contentAt s.slides i.toNat = true
    · obtain ⟨hcc, hci⟩ := hc
      by_cases hq : queryActive s.slides = some i.toNat
      · rw [showSlide_same i s hT h0 hN hcc hci hq]
        simpa [state_returned, ariaUpdated_rest] using ok
      · rw [showSlide_change i s hT h0 hN hcc hci hq]
        have ok2 : TimersOk
            (ariaUpdated (some s.currentSlide) i.toNat
              { s with isTransitioning := true, currentSlide := i.toNat }).timers
            (ariaUpdated (some s.currentSlide) i.toNat
              { s with isTransitioning := true, currentSlide := i.toNat }).nextTimerId
            (ariaUpdated (some s.currentSlide) i.toNat
              { s with isTransitioning := true, currentSlide := i.toNat }).slideInterval := by
          simpa [ariaUpdated_rest] using ok
        have ok3 := timersOk_pause _ ok2
        simp only [setTimeout, state_returned]
        exact (ok3.schedule _ (Callback.reveal i.toNat) (by simp)).schedule _
          (Callback.complete (queryActive s.slides)) (by simp)
    · have hc' : contentAt s.slides s.currentSlide = false ∨ contentAt s.slides i.toNat = false := by
        by_cases h1 : contentAt s.slides s.currentSlide = true
        · right
          cases h2 : contentAt s.slides i.toNat
          · rfl
          · exact absurd ⟨h1, h2⟩ hc
        · left; simpa using h1
      obtain ⟨s', hs', _, _, t1, t2, t3, _⟩ := showSlide_threw i s hT h0 hN hc'
      rw [hs', state_threw, t1, t2, t3]
      exact ok

theorem timersOk_start (s : State) (ok : TimersOk s.timers s.nextTimerId s.slideInterval) :
    TimersOk (startSlideShow s).timers (startSlideShow s).nextTimerId
      (startSlideShow s).slideInterval := by
  by_cases h : s.slideInterval = Handle.null
  · rw [start_of_null s h]
    rw [h] at ok
    exact ok.scheduleAdvance _
  · rw [start_of_not_null s h]; exact ok

theorem timersOk_nextSlideFunc (s : State)
    (ok : TimersOk s.timers s.nextTimerId s.slideInterval) :
    TimersOk (nextSlideFunc s).state.timers (nextSlideFunc s).state.nextTimerId
      (nextSlideFunc s).state.slideInterval := by
  unfold nextSlideFunc nextSlide
  split
  · exact timersOk_showSlide _ s ok
  · exact ok

theorem timersOk_runCallback (cb : Callback) (s : State)
    (ok : TimersOk s.timers s.nextTimerId s.slideInterval) :
    TimersOk (runCallback cb s).state.timers (runCallback cb s).state.nextTimerId
      (runCallback cb s).state.slideInterval := by
  cases cb with
  | reveal index => exact ok
  | complete currentActive =>
    unfold runCallback
    by_cases h : s.slideInterval = Handle.null
    · simp only [h, if_true, setTimeout, state_returned]
      rw [h] at ok
      exact ok.scheduleAdvance _
    · simp only [h, if_false, state_returned]
      exact ok
  | advance => exact timersOk_nextSlideFunc s ok

theorem timersOk_fire (t : Timer) (s : State)
    (ok : TimersOk s.timers s.nextTimerId s.slideInterval) :
    TimersOk (fire t s).state.timers (fire t s).state.nextTimerId (fire t s).state.slideInterval := by
  unfold fire
  exact timersOk_runCallback t.cb _ (ok.filter _)

/-! ## A property kept by the four operations is kept by every event -/

theorem step_preserves (P : State → Prop)
    (hshow : ∀ i s, P s → P (showSlide i s).state)
    (hpause : ∀ s, P s → P (pauseSlideShow s))
    (hstart : ∀ s, P s → P (startSlideShow s))
    (hfire : ∀ t s, t ∈ s.timers → P s → P (fire t s).state)
    (htouch : ∀ s a b, P s → P { s with touchStartX := a, touchEndX := b })
    (hwait : ∀ s n, P s → P { s with now := n })
    (e : Event) (s : State) (h : P s) : P (step e s) := by
  unfold step
  cases e with
  | prevClick => exact hshow _ s h
  | nextClick => exact hshow _ s h
  | keydown key =>
    cases key <;> first | exact hshow _ s h | exact h
  | touchstart x => exact htouch s x s.touchEndX h
  | touchend x =>
    have h2 := htouch s s.touchStartX x h
    simp only [handle, handleTouchEnd, handleSwipe]
    split
    · exact hshow _ _ h2
    · exact hshow _ _ h2
    · exact h2
  | dotClick index =>
    simp only [handle]
    split
    · exact hshow _ s h
    · exact h
  | dotKeydown index key =>
    simp only [handle, dotKeyDown]
    split
    · split
      · exact hshow _ s h
      · exact h
    · exact h
  | mouseenter => exact hpause s h
  | mouseleave => exact hstart s h
  | focusin => exact hpause s h
  | focusout => exact hstart s h
  | timer id =>
    simp only [handle, fireTimer]
    split
    · rename_i t ht
      exact hfire t s (List.mem_of_find?_eq_some ht) h
    · exact h
  | wait ms => exact hwait s _ h

theorem timersOk_step (e : Event) (s : State)
    (ok : TimersOk s.timers s.nextTimerId s.slideInterval) :
    TimersOk (step e s).timers (step e s).nextTimerId (step e s).slideInterval :=
  step_preserves (fun s => TimersOk s.timers s.nextTimerId s.slideInterval)
    timersOk_showSlide timersOk_pause timersOk_start (fun t s _ hs => timersOk_fire t s hs)
    (fun _ _ _ hs => hs) (fun _ _ hs => hs) e s ok

/-! ## Initialisation and the invariant of all reachable states -/

theorem showSlide_returns (i : Int) (s : State)
    (hcc : contentAt s.slides s.currentSlide = true)
    (hci : 0 ≤ i → i < (s.slides.length : Int) → contentAt s.slides i.toNat = true) :
    showSlide i s = Outcome.returned (showSlide i s).state := by
  by_cases hrej : s.isTransitioning = true ∨ i < 0 ∨ (s.slides.length : Int) ≤ i
  · rw [showSlide_rejected i s hrej]; rfl
  · simp only [not_or, Bool.not_eq_true, not_lt, not_le] at hrej
    obtain ⟨hT, h0, hN⟩ := hrej
    by_cases hq : queryActive s.slides = some i.toNat
    · rw [showSlide_same i s hT h0 hN hcc (hci h0 hN) hq]; rfl
    · rw [showSlide_change i s hT h0 hN hcc (hci h0 hN) hq]; rfl

/-- The function `init` completes exactly when slide 0 exists and has a `.hero-content`,
and then returns in the state `started v`. -/
theorem init_eq (v : View) :
    init v = if contentAt v.slides 0 then some (started v) else none := by
  unfold init
  by_cases h : contentAt v.slides 0 = true
  · rw [if_pos h, updateAria_returned none 0 (declared v) (by intro q hq; cases hq) h]
    have hcc : contentAt (ariaUpdated none 0 (declared v)).slides
        (ariaUpdated none 0 (declared v)).currentSlide = true := by
      rw [(ariaUpdated_rest none 0 (declared v)).2.2.2.1, contentAt_ariaUpdated]
      exact h
    have hr := showSlide_returns 0 (ariaUpdated none 0 (declared v)) hcc
      (fun _ _ => by rw [contentAt_ariaUpdated]; exact h)
    simp only []
    rw [hr]
    rfl
  · rw [if_neg h]
    cases hu : updateAriaAttributes none 0 (declared v) with
    | threw s' => rfl
    | returned s1 =>
      exfalso
      unfold updateAriaAttributes at hu
      have h' : contentAt (declared v).slides 0 = false := by simpa using h
      simp [Outcome.andThen, hideOrShow_eq, h'] at hu

theorem init_eq_some (v : View) (s0 : State) (h : init v = some s0) :
    contentAt v.slides 0 = true ∧ s0 = started v := by
  rw [init_eq] at h
  by_cases hc : contentAt v.slides 0 = true
  · rw [if_pos hc] at h
    exact ⟨hc, (Option.some.inj h).symm⟩
  · rw [if_neg hc] at h
    exact absurd h (by simp)

theorem length_markLeaving (o : Option Nat) (l : List Slide) :
    (markLeaving o l).length = l.length := by
  cases o <;> simp [markLeaving, List.length_modify]

theorem length_cleanUpOutgoing (o : Option Nat) (l : List Slide) :
    (cleanUpOutgoing o l).length = l.length := by
  cases o <;> simp [cleanUpOutgoing, List.length_modify]

theorem showSlide_lengths (i : Int) (s : State) :
    (showSlide i s).state.slides.length = s.slides.length ∧
      (showSlide i s).state.dots.length = s.dots.length := by
  by_cases hrej : s.isTransitioning = true ∨ i < 0 ∨ (s.slides.length : Int) ≤ i
  · rw [showSlide_rejected i s hrej]; exact ⟨rfl, rfl⟩
  · simp only [not_or, Bool.not_eq_true, not_lt, not_le] at hrej
    obtain ⟨hT, h0, hN⟩ := hrej
    by_cases hc : contentAt s.slides s.currentSlide = true ∧ contentAt s.slides i.toNat = true
    · obtain ⟨hcc, hci⟩ := hc
      by_cases hq : queryActive s.slides = some i.toNat
      · rw [showSlide_same i s hT h0 hN hcc hci hq]
        simp [state_returned, ariaUpdated_rest, length_updateDotsFrom]
      · rw [showSlide_change i s hT h0 hN hcc hci hq]
        simp [state_returned, setTimeout, pause_rest, ariaUpdated_rest, length_updateDotsFrom,
          List.length_modify, length_markLeaving]
    · have hc' : contentAt s.slides s.currentSlide = false ∨ contentAt s.slides i.toNat = false := by
        by_cases h1 : contentAt s.slides s.currentSlide = true
        · right
          cases h2 : contentAt s.slides i.toNat
          · rfl
          · exact absurd ⟨h1, h2⟩ hc
        · left; simpa using h1
      obtain ⟨s', hs', _, _, _, _, _, d1, _, l1, _⟩ := showSlide_threw i s hT h0 hN hc'
      rw [hs', state_threw, d1, l1]
      exact ⟨rfl, rfl⟩

theorem runCallback_lengths (cb : Callback) (s : State) :
    (runCallback cb s).state.slides.length = s.slides.length ∧
      (runCallback cb s).state.dots.length = s.dots.length := by
  cases cb with
  | reveal index => simp [runCallback, state_returned, List.length_modify]
  | complete currentActive =>
    unfold runCallback
    by_cases hn : s.slideInterval = Handle.null
    · simp [hn, setTimeout, state_returned, length_cleanUpOutgoing]
    · simp [hn, state_returned, length_cleanUpOutgoing]
  | advance =>
    show (nextSlideFunc s).state.slides.length = _ ∧ (nextSlideFunc s).state.dots.length = _
    unfold nextSlideFunc nextSlide
    split
    · exact showSlide_lengths _ s
    · exact ⟨rfl, rfl⟩

theorem inv_showSlide (v : View) (i : Int) (s : State) (h : Inv v s) :
    Inv v (showSlide i s).state where
  slides_length := by rw [(showSlide_lengths i s).1]; exact h.slides_length
  dots_length := by rw [(showSlide_lengths i s).2]; exact h.dots_length
  timers := timersOk_showSlide i s h.timers

theorem inv_pause (v : View) (s : State) (h : Inv v s) : Inv v (pauseSlideShow s) where
  slides_length := by rw [(pause_rest s).1]; exact h.slides_length
  dots_length := by rw [(pause_rest s).2.1]; exact h.dots_length
  timers := timersOk_pause s h.timers

theorem inv_start (v : View) (s : State) (h : Inv v s) : Inv v (startSlideShow s) := by
  by_cases hn : s.slideInterval = Handle.null
  · have ht := timersOk_start s h.timers
    rw [start_of_null s hn] at ht ⊢
    exact ⟨h.slides_length, h.dots_length, ht⟩
  · rw [start_of_not_null s hn]; exact h

theorem inv_fire (v : View) (t : Timer) (s : State) (h : Inv v s) : Inv v (fire t s).state := by
  have ht := timersOk_fire t s h.timers
  unfold fire at ht ⊢
  obtain ⟨l1, l2⟩ := runCallback_lengths t.cb
    { s with timers := s.timers.filter (fun u => u.id != t.id), now := max s.now t.due }
  exact ⟨by rw [l1]; exact h.slides_length, by rw [l2]; exact h.dots_length, ht⟩

theorem inv_step (v : View) (e : Event) (s : State) (h : Inv v s) : Inv v (step e s) :=
  step_preserves (Inv v) (inv_showSlide v) (inv_pause v) (inv_start v)
    (fun t s _ hs => inv_fire v t s hs)
    (fun _ _ _ hs => ⟨hs.slides_length, hs.dots_length, hs.timers⟩)
    (fun _ _ hs => ⟨hs.slides_length, hs.dots_length, hs.timers⟩) e s h

theorem inv_init (v : View) (s0 : State) (h0 : init v = some s0) : Inv v s0 := by
  obtain ⟨_, rfl⟩ := init_eq_some v s0 h0
  have h1 : Inv v (ariaUpdated none 0 (declared v)) := by
    refine ⟨?_, ?_, ?_⟩
    · rw [(ariaUpdated_rest none 0 (declared v)).2.2.2.2.2.2.2]; rfl
    · rw [(ariaUpdated_rest none 0 (declared v)).2.2.2.2.2.2.1, length_updateDotsFrom]; rfl
    · simp only [ariaUpdated_rest]
      simp [declared, TimersOk]
  have h3 := inv_start v _ (inv_showSlide v 0 _ h1)
  exact ⟨h3.slides_length, h3.dots_length, h3.timers⟩

theorem inv_of_reachable (v : View) (s : State) (h : Reachable v s) : Inv v s := by
  induction h with
  | init h0 => exact inv_init v _ h0
  | step e _ ih => exact inv_step v e _ ih

theorem sampleStart_init : init (sampleView [true, false, false]) = some sampleStart := by
  rw [init_eq]; rfl

theorem sampleStartBlank_init : init (sampleView [false, false, false]) = some sampleStartBlank := by
  rw [init_eq]; rfl

theorem sampleStartSingle_init : init (sampleView [true]) = some sampleStartSingle := by
  rw [init_eq]; rfl

theorem sampleStartTwoActive_init :
    init (sampleView [true, true, false]) = some sampleStartTwoActive := by
  rw [init_eq]; rfl

theorem sampleStartBare_init : init sampleViewBare = some sampleStartBare := by
  rw [init_eq]; rfl

/-! ## C7: the timer invariant -/

theorem advanceTimers_le_one (s : State)
    (ok : TimersOk s.timers s.nextTimerId s.slideInterval) : (advanceTimers s).length ≤ 1 := by
  obtain ⟨nd, _, _, iff⟩ := ok
  have hsub : ((advanceTimers s).map Timer.id).Nodup :=
    ((List.filter_sublist s.timers).map Timer.id).nodup nd
  have hall : ∀ t ∈ advanceTimers s, s.slideInterval = Handle.id t.id := by
    intro t ht
    unfold advanceTimers at ht
    rw [List.mem_filter] at ht
    exact (iff t ht.1).mp (by simpa using ht.2)
  match hl : advanceTimers s with
  | [] => simp
  | [_] => simp
  | a :: b :: rest =>
    exfalso
    rw [hl] at hsub hall
    have ha := hall a (by simp)
    have hb := hall b (by simp)
    rw [ha] at hb
    simp only [Handle.id.injEq] at hb
    simp [hb] at hsub

/-- C7: in every state reachable from a completed `init`, at most one auto-advance timer is
pending and each pending one has its handle stored in `slideInterval`; `pauseSlideShow()`
followed at once by `startSlideShow()` leaves exactly one, again the one in `slideInterval`. -/
theorem timer_invariant (v : View) (s : State) (h : Reachable v s) :
    (advanceTimers s).length ≤ 1 ∧
    (∀ t ∈ s.timers, t.cb = Callback.advance → s.slideInterval = Handle.id t.id) ∧
    (advanceTimers (startSlideShow (pauseSlideShow s))).length = 1 ∧
    (∀ t ∈ (startSlideShow (pauseSlideShow s)).timers, t.cb = Callback.advance →
      (startSlideShow (pauseSlideShow s)).slideInterval = Handle.id t.id) := by
  have inv := inv_of_reachable v s h
  have inv2 := inv_start v _ (inv_pause v s inv)
  refine ⟨advanceTimers_le_one s inv.timers, fun t ht hcb => (inv.timers.2.2.2 t ht).mp hcb, ?_,
    fun t ht hcb => (inv2.timers.2.2.2 t ht).mp hcb⟩
  have hp := (inv_pause v s inv).timers
  have hnull := pause_slideInterval s
  rw [hnull] at hp
  have hnone : advanceTimers (pauseSlideShow s) = [] := by
    unfold advanceTimers
    rw [List.filter_eq_nil_iff]
    intro t ht
    have := hp.2.2.2 t ht
    simpa using this
  rw [start_of_null _ hnull]
  unfold advanceTimers at hnone ⊢
  simp [List.filter_append, hnone]

theorem timer_invariant_witness :
    Reachable (sampleView [false, false, false]) (step Event.mouseenter sampleStartBlank) ∧
    ((advanceTimers (step Event.mouseenter sampleStartBlank)).length ≤ 1 ∧
    (∀ t ∈ (step Event.mouseenter sampleStartBlank).timers, t.cb = Callback.advance →
      (step Event.mouseenter sampleStartBlank).slideInterval = Handle.id t.id) ∧
    (advanceTimers (startSlideShow (pauseSlideShow
      (step Event.mouseenter sampleStartBlank)))).length = 1 ∧
    (∀ t ∈ (startSlideShow (pauseSlideShow (step Event.mouseenter sampleStartBlank))).timers,
      t.cb = Callback.advance →
      (startSlideShow (pauseSlideShow (step Event.mouseenter sampleStartBlank))).slideInterval =
        Handle.id t.id)) :=
  ⟨Reachable.step _ (Reachable.init sampleStartBlank_init),
    timer_invariant _ _ (Reachable.step _ (Reachable.init sampleStartBlank_init))⟩

/-! ## C8: `startSlideShow` and the uninitialised `slideInterval` -/

/-- What `startSlideShow` does when `slideInterval` is `null`: one auto-advance timer is
appended, due `VISIBLE_DURATION` = 3200 ms from now, and its handle is stored. -/
theorem startSlideShow_null (s : State) (h : s.slideInterval = Handle.null) :
    VISIBLE_DURATION = 3200 ∧
    (startSlideShow s).timers =
      s.timers ++ [{ id := s.nextTimerId, due := s.now + 3200, cb := Callback.advance }] ∧
    (startSlideShow s).slideInterval = Handle.id s.nextTimerId := by
  rw [start_of_null s h]
  exact ⟨rfl, rfl, rfl⟩

/-- What `startSlideShow` does while an auto-advance timer is pending in a reachable
state: nothing. -/
theorem startSlideShow_pending (v : View) (s : State) (h : Reachable v s)
    (hp : advanceTimers s ≠ []) : startSlideShow s = s := by
  have inv := inv_of_reachable v s h
  obtain ⟨t, ht⟩ := List.exists_mem_of_ne_nil _ hp
  unfold advanceTimers at ht
  rw [List.mem_filter] at ht
  have := (inv.timers.2.2.2 t ht.1).mp (by simpa using ht.2)
  exact start_of_not_null s (by rw [this]; simp)

/-- C8, the code at the failing inputs: right after the variables are declared
(`slideInterval` is `undefined`) no auto-advance timer is pending and `startSlideShow()`
changes nothing, so none is pending afterwards either; the same happens on a reachable
state whose timer has fired without starting a transition (`slideInterval` still holds
the fired handle). -/
theorem startSlideShow_not_null_noop (v : View) :
    advanceTimers (declared v) = [] ∧
    startSlideShow (declared v) = declared v ∧
    advanceTimers (startSlideShow (declared v)) = [] ∧
    Reachable (sampleView [true]) sampleAfterFire ∧
    sampleAfterFire.slideInterval = Handle.id 1 ∧
    advanceTimers sampleAfterFire = [] ∧
    startSlideShow sampleAfterFire = sampleAfterFire ∧
    advanceTimers (startSlideShow sampleAfterFire) = [] :=
  ⟨rfl, rfl, rfl,
    Reachable.step _ (Reachable.step _ (Reachable.step _ (Reachable.init sampleStartSingle_init))),
    by decide, by decide, by decide, by decide⟩

/-! ## `queryActive` and the `active` flags -/

theorem activeAt_cons_zero (sl : Slide) (rest : List Slide) :
    activeAt (sl :: rest) 0 = sl.active := by
  simp [activeAt]

theorem activeAt_cons_succ (sl : Slide) (rest : List Slide) (k : Nat) :
    activeAt (sl :: rest) (k + 1) = activeAt rest k := by
  simp [activeAt]

theorem activeAt_lt {l : List Slide} {k : Nat} (h : activeAt l k = true) : k < l.length := by
  by_contra hk
  have : l[k]? = none := List.getElem?_eq_none (by omega)
  simp [activeAt, this] at h

theorem queryActive_some {l : List Slide} {k : Nat} (h : queryActive l = some k) :
    activeAt l k = true ∧ ∀ j, j < k → activeAt l j = false := by
  induction l generalizing k with
  | nil => simp [queryActive] at h
  | cons sl rest ih =>
    unfold queryActive at h
    by_cases ha : sl.active = true
    · simp only [ha, if_true, Option.some.injEq] at h
      subst h
      exact ⟨by rw [activeAt_cons_zero]; exact ha, fun j hj => absurd hj (Nat.not_lt_zero j)⟩
    · simp only [ha, Bool.false_eq_true, if_false, Option.map_eq_some'] at h
      obtain ⟨k', hk', rfl⟩ := h
      obtain ⟨h1, h2⟩ := ih hk'
      refine ⟨by rw [activeAt_cons_succ]; exact h1, ?_⟩
      intro j hj
      cases j with
      | zero => rw [activeAt_cons_zero]; simpa using ha
      | succ j => rw [activeAt_cons_succ]; exact h2 j (by omega)

theorem queryActive_none {l : List Slide} (h : queryActive l = none) (k : Nat) :
    activeAt l k = false := by
  induction l generalizing k with
  | nil => simp [activeAt]
  | cons sl rest ih =>
    unfold queryActive at h
    by_cases ha : sl.active = true
    · simp [ha] at h
    · simp only [ha, Bool.false_eq_true, if_false, Option.map_eq_none'] at h
      cases k with
      | zero => rw [activeAt_cons_zero]; simpa using ha
      | succ k => rw [activeAt_cons_succ]; exact ih h k

theorem queryActive_of_unique {l : List Slide} {c : Nat}
    (h : ∀ k, activeAt l k = true ↔ k = c) : queryActive l = some c := by
  cases hq : queryActive l with
  | none =>
    have := queryActive_none hq c
    rw [(h c).mpr rfl] at this
    exact absurd this (by simp)
  | some k => rw [(h k).mp (queryActive_some hq).1]

theorem activeAt_addActive (l : List Slide) (n k : Nat) :
    activeAt (l.modify addActive n) k = true ↔ (activeAt l k = true ∨ (n = k ∧ k < l.length)) := by
  rw [activeAt_modify]
  unfold activeAt
  cases hk : l[k]? with
  | none =>
    have : l.length ≤ k := by
      by_contra hlt
      rw [List.getElem?_eq_getElem (by omega)] at hk
      exact absurd hk (by simp)
    simp
    omega
  | some a =>
    have : k < l.length := by
      by_contra hlt
      rw [List.getElem?_eq_none (by omega)] at hk
      exact absurd hk (by simp)
    by_cases hnk : n = k <;> simp [hnk, addActive, this]

theorem activeAt_cleanUp (l : List Slide) (n k : Nat) :
    activeAt (l.modify cleanUp n) k = true ↔ (activeAt l k = true ∧ n ≠ k) := by
  rw [activeAt_modify]
  unfold activeAt
  cases hk : l[k]? with
  | none => simp
  | some a => by_cases hnk : n = k <;> simp [hnk, cleanUp]

theorem activeAt_ariaUpdated (p : Option Nat) (n : Nat) (s : State) (k : Nat) :
    activeAt (ariaUpdated p n s).slides k = activeAt s.slides k := by
  cases p <;>
    simp [ariaUpdated, updateDotsAndIndicator, activeAt_modify_same, setAriaHidden]

/-! ## What an accepted `showSlide` and the callbacks do -/

theorem activeAt_markLeaving (o : Option Nat) (l : List Slide) (k : Nat) :
    activeAt (markLeaving o l) k = activeAt l k := by
  cases o with
  | none => rfl
  | some a => exact activeAt_modify_same addLeaving (fun _ => rfl) l a k

theorem activeAt_cleanUpOutgoing (o : Option Nat) (l : List Slide) (k : Nat) :
    activeAt (cleanUpOutgoing o l) k = true ↔ (activeAt l k = true ∧ o ≠ some k) := by
  cases o with
  | none => simp [cleanUpOutgoing]
  | some a => simp only [cleanUpOutgoing, activeAt_cleanUp, ne_eq, Option.some.injEq]


theorem showSlide_accepted_currentSlide (i : Int) (s : State) (hT : s.isTransitioning = false)
    (h0 : 0 ≤ i) (hN : i < (s.slides.length : Int)) :
    (showSlide i s).state.currentSlide = i.toNat := by
  rw [showSlide_accepted i s hT h0 hN]
  have h4 := (updateAria_state (some s.currentSlide) i.toNat
    { s with isTransitioning := true, currentSlide := i.toNat }).2.2.2.1
  cases hu : updateAriaAttributes (some s.currentSlide) i.toNat
      { s with isTransitioning := true, currentSlide := i.toNat } with
  | threw s' =>
    rw [hu] at h4
    exact h4
  | returned s2 =>
    rw [hu] at h4
    simp only [state_returned] at h4
    simp only [Outcome.andThen, state_returned, crossfade]
    split
    · exact h4
    · simp only [setTimeout]
      split <;> simp [setTimeout, pause_rest, h4]

theorem pause_ariaUpdated_timers (p : Option Nat) (n : Nat) (s : State) (b : Bool) (c : Nat) :
    (pauseSlideShow (ariaUpdated p n
      { s with isTransitioning := b, currentSlide := c })).timers = (pauseSlideShow s).timers := by
  rw [pause_timers, pause_timers]
  simp only [ariaUpdated_rest]

theorem showSlide_change_fields (i : Int) (s : State) (hT : s.isTransitioning = false)
    (h0 : 0 ≤ i) (hN : i < (s.slides.length : Int))
    (hcc : contentAt s.slides s.currentSlide = true) (hci : contentAt s.slides i.toNat = true)
    (hq : queryActive s.slides ≠ some i.toNat) :
    (showSlide i s).state.currentSlide = i.toNat ∧ (showSlide i s).state.isTransitioning = true ∧
    (showSlide i s).state.slideInterval = Handle.null ∧
    (showSlide i s).state.timers = (pauseSlideShow s).timers ++
      [revealTimer s i.toNat, completeTimer s (queryActive s.slides)] ∧
    (showSlide i s).state.nextTimerId = s.nextTimerId + 2 ∧ (showSlide i s).state.now = s.now ∧
    (∀ k, activeAt (showSlide i s).state.slides k = true ↔
      (activeAt s.slides k = true ∨ k = i.toNat)) ∧
    (showSlide i s).state.dots = updateDotsFrom i.toNat 0 s.dots ∧
    (∀ k, contentAt (showSlide i s).state.slides k = contentAt s.slides k) := by
  have hlt : i.toNat < s.slides.length := by omega
  rw [showSlide_change i s hT h0 hN hcc hci hq, state_returned]
  refine ⟨by simp [setTimeout, pause_rest, ariaUpdated_rest],
    by simp [setTimeout, pause_rest, ariaUpdated_rest],
    by simp [setTimeout, pause_slideInterval], ?_,
    by simp [setTimeout, pause_rest, ariaUpdated_rest],
    by simp [setTimeout, pause_rest, ariaUpdated_rest], ?_,
    by simp [setTimeout, pause_rest, ariaUpdated_rest], ?_⟩
  · simp only [setTimeout, pause_ariaUpdated_timers, pause_rest, ariaUpdated_rest,
      List.append_assoc, List.singleton_append, revealTimer, completeTimer]
  · intro k
    simp only [setTimeout, pause_rest]
    simp only [activeAt_modify_same setOpacityOne (fun _ => rfl), activeAt_markLeaving,
      activeAt_addActive, activeAt_modify_same prepareSlide (fun _ => rfl), activeAt_ariaUpdated,
      List.length_modify, ariaUpdated_rest]
    constructor
    · rintro (h | ⟨h, _⟩)
      · exact Or.inl h
      · exact Or.inr h.symm
    · rintro (h | h)
      · exact Or.inl h
      · exact Or.inr ⟨h.symm, by omega⟩
  · intro k
    simp only [setTimeout, pause_rest]
    rw [contentAt_modify setOpacityOne (fun _ => rfl), contentAt_markLeaving,
      contentAt_modify addActive (fun _ => rfl), contentAt_modify prepareSlide prepareSlide_content,
      contentAt_ariaUpdated]

theorem contentAt_cleanUpOutgoing (o : Option Nat) (l : List Slide) (k : Nat) :
    contentAt (cleanUpOutgoing o l) k = contentAt l k := by
  cases o with
  | none => rfl
  | some a => exact contentAt_modify cleanUp (fun _ => rfl) l a k

theorem runCallback_complete (o : Option Nat) (s : State) :
    ∃ s', runCallback (Callback.complete o) s = Outcome.returned s' ∧
    s'.isTransitioning = false ∧ s'.currentSlide = s.currentSlide ∧
    s'.slides = cleanUpOutgoing o s.slides ∧ s'.dots = s.dots ∧
    s'.slideIndicator = s.slideIndicator ∧
    (∀ u, u ∈ s'.timers → u ∈ s.timers ∨ u.cb = Callback.advance) := by
  unfold runCallback
  by_cases h : s.slideInterval = Handle.null
  · simp only [h, if_true, setTimeout, Outcome.returned.injEq, exists_eq_left', List.mem_append,
      List.mem_singleton, true_and]
    rintro u (hu | rfl)
    · exact Or.inl hu
    · exact Or.inr rfl
  · simp only [h, if_false, Outcome.returned.injEq, exists_eq_left', true_and]
    exact fun u hu => Or.inl hu

theorem fire_complete (t : Timer) (o : Option Nat) (s : State) (h : t.cb = Callback.complete o) :
    ∃ s', fire t s = Outcome.returned s' ∧
    s'.isTransitioning = false ∧ s'.currentSlide = s.currentSlide ∧
    s'.slides = cleanUpOutgoing o s.slides ∧ s'.dots = s.dots ∧
    s'.slideIndicator = s.slideIndicator ∧
    (∀ u, u ∈ s'.timers → (u ∈ s.timers ∧ u.id ≠ t.id) ∨ u.cb = Callback.advance) := by
  unfold fire
  rw [h]
  obtain ⟨s', h0, h1, h2, h3, h4, h5, h6⟩ := runCallback_complete o
    { s with timers := s.timers.filter (fun u => u.id != t.id), now := max s.now t.due }
  refine ⟨s', h0, h1, h2, h3, h4, h5, ?_⟩
  intro u hu
  rcases h6 u hu with hu | hu
  · simp only [List.mem_filter, bne_iff_ne, ne_eq] at hu
    exact Or.inl hu
  · exact Or.inr hu

theorem fire_reveal (t : Timer) (n : Nat) (s : State) (h : t.cb = Callback.reveal n) :
    fire t s =
      Outcome.returned
      { s with
        slides := s.slides.modify revealContent n
        timers := s.timers.filter (fun u => u.id != t.id)
        now := max s.now t.due } := by
  unfold fire
  rw [h]
  rfl

theorem leavingAt_cleanUp (l : List Slide) (n : Nat) : leavingAt (l.modify cleanUp n) n = false := by
  unfold leavingAt
  rw [List.getElem?_modify]
  cases l[n]? with
  | none => rfl
  | some a => simp [cleanUp]

/-! ## Accessibility state after an accepted `showSlide` -/

theorem ariaVisibleAt_modify (f : Slide → Slide)
    (hf : ∀ a, (f a).ariaHidden = a.ariaHidden ∧
      (f a).content.map Content.ariaHidden = a.content.map Content.ariaHidden)
    (l : List Slide) (n k : Nat) (h : ariaVisibleAt l k) : ariaVisibleAt (l.modify f n) k := by
  intro sl hsl
  rw [List.getElem?_modify] at hsl
  cases hk : l[k]? with
  | none => simp [hk] at hsl
  | some a =>
    simp only [hk, Option.map_eq_map, Option.map_some', Option.some.injEq] at hsl
    subst hsl
    have := h a hk
    split
    · rw [(hf a).1, (hf a).2]; exact this
    · exact this

theorem ariaVisibleAt_set (l : List Slide) (n : Nat) (hc : contentAt l n = true) :
    ariaVisibleAt (l.modify (setAriaHidden false) n) n := by
  intro sl hsl
  rw [List.getElem?_modify] at hsl
  cases hk : l[n]? with
  | none => simp [hk] at hsl
  | some a =>
    simp only [hk, Option.map_eq_map, Option.map_some', Option.some.injEq, if_true] at hsl
    subst hsl
    simp only [contentAt, hk] at hc
    cases hca : a.content with
    | none => simp [hca] at hc
    | some c => simp [setAriaHidden, hca]

theorem contentAt_of_ariaVisible {l : List Slide} {k : Nat} (hk : k < l.length)
    (h : ariaVisibleAt l k) : contentAt l k = true := by
  have := h l[k] (List.getElem?_eq_getElem hk)
  unfold contentAt
  rw [List.getElem?_eq_getElem hk]
  cases hc : l[k].content with
  | none => simp [hc] at this
  | some c => simp [hc]

theorem prepareSlide_aria (a : Slide) :
    (prepareSlide a).ariaHidden = a.ariaHidden ∧
      (prepareSlide a).content.map Content.ariaHidden = a.content.map Content.ariaHidden := by
  cases h : a.content <;> simp [prepareSlide, h]

theorem revealContent_aria (a : Slide) :
    (revealContent a).ariaHidden = a.ariaHidden ∧
      (revealContent a).content.map Content.ariaHidden = a.content.map Content.ariaHidden := by
  cases h : a.content <;> simp [revealContent, h]

theorem dotsSelect_update (dots : List Dot) (n : Nat) : dotsSelect (updateDotsFrom n 0 dots) n := by
  intro j d hd
  rw [getElem?_updateDotsFrom] at hd
  cases hj : dots[j]? with
  | none => simp [hj] at hd
  | some a =>
    simp only [hj, Option.map_some', Option.some.injEq, Nat.zero_add] at hd
    subst hd
    simp

theorem ariaUpdated_slideIndicator (p : Option Nat) (n : Nat) (s : State) :
    (ariaUpdated p n s).slideIndicator =
      s.slideIndicator.map (fun _ => slideIndicatorText n s.slides.length) := by
  cases p <;> simp [ariaUpdated, updateDotsAndIndicator]

theorem pageOk_ariaUpdated (p : Option Nat) (n : Nat) (s : State) (hc : contentAt s.slides n = true) :
    PageOk (ariaUpdated p n s).slides (ariaUpdated p n s).dots
      (ariaUpdated p n s).slideIndicator n := by
  have hn : n < s.slides.length := contentAt_lt hc
  refine ⟨?_, ?_, ?_, ?_⟩
  · rw [(ariaUpdated_rest p n s).2.2.2.2.2.2.2]; exact hn
  · rw [(ariaUpdated_rest p n s).2.2.2.2.2.2.1]; exact dotsSelect_update _ _
  · cases p with
    | none => exact ariaVisibleAt_set _ _ hc
    | some q =>
      exact ariaVisibleAt_set _ _
        (by rw [contentAt_modify _ (setAriaHidden_content true)]; exact hc)
  · intro txt htxt
    rw [ariaUpdated_slideIndicator] at htxt
    rw [(ariaUpdated_rest p n s).2.2.2.2.2.2.2]
    cases h : s.slideIndicator with
    | none => simp [h] at htxt
    | some a => simp [h] at htxt; exact htxt.symm

/-- The predicate `PageOk` only looks at the `aria-hidden` flags and the number of slides. -/
theorem PageOk.modify {slides : List Slide} {dots : List Dot} {live : Option String} {cur : Nat}
    (ok : PageOk slides dots live cur) (f : Slide → Slide)
    (hf : ∀ a, (f a).ariaHidden = a.ariaHidden ∧
      (f a).content.map Content.ariaHidden = a.content.map Content.ariaHidden)
    (n : Nat) : PageOk (slides.modify f n) dots live cur := by
  obtain ⟨h1, h2, h3, h4⟩ := ok
  refine ⟨by rw [List.length_modify]; exact h1, h2, ariaVisibleAt_modify f hf _ _ _ h3, ?_⟩
  rw [List.length_modify]; exact h4

theorem PageOk.markLeaving {slides : List Slide} {dots : List Dot} {live : Option String}
    {cur : Nat} (ok : PageOk slides dots live cur) (o : Option Nat) :
    PageOk (markLeaving o slides) dots live cur := by
  cases o with
  | none => exact ok
  | some a => exact ok.modify addLeaving (fun _ => ⟨rfl, rfl⟩) a

theorem PageOk.cleanUpOutgoing {slides : List Slide} {dots : List Dot} {live : Option String}
    {cur : Nat} (ok : PageOk slides dots live cur) (o : Option Nat) :
    PageOk (cleanUpOutgoing o slides) dots live cur := by
  cases o with
  | none => exact ok
  | some a => exact ok.modify cleanUp (fun _ => ⟨rfl, rfl⟩) a

/-- After an accepted `showSlide(i)` that did not throw, the accessibility state is the
one of slide `i`. -/
theorem pageOk_showSlide (i : Int) (s : State) (hT : s.isTransitioning = false)
    (h0 : 0 ≤ i) (hN : i < (s.slides.length : Int))
    (hcc : contentAt s.slides s.currentSlide = true) (hci : contentAt s.slides i.toNat = true) :
    PageOk (showSlide i s).state.slides (showSlide i s).state.dots
      (showSlide i s).state.slideIndicator (showSlide i s).state.currentSlide := by
  have base := pageOk_ariaUpdated (some s.currentSlide) i.toNat
    { s with isTransitioning := true, currentSlide := i.toNat } hci
  by_cases hq : queryActive s.slides = some i.toNat
  · rw [showSlide_same i s hT h0 hN hcc hci hq]
    exact base
  · rw [showSlide_change i s hT h0 hN hcc hci hq]
    simp only [state_returned, setTimeout, pause_rest, ariaUpdated_rest]
    exact (((base.modify prepareSlide prepareSlide_aria _).modify addActive
      (fun _ => ⟨rfl, rfl⟩) _).markLeaving _).modify setOpacityOne (fun _ => ⟨rfl, rfl⟩) _

/-! ## The class flags follow the transition state -/

theorem mem_pause_timers (s : State) (u : Timer) (h : u ∈ (pauseSlideShow s).timers) :
    u ∈ s.timers := by
  rw [pause_timers] at h
  cases hs : s.slideInterval with
  | undefined => simpa [hs] using h
  | null => simpa [hs] using h
  | id n =>
    simp only [hs] at h
    exact List.mem_of_mem_filter h

theorem timer_eq_of_id {ts : List Timer} (nd : (ts.map Timer.id).Nodup) {a b : Timer}
    (ha : a ∈ ts) (hb : b ∈ ts) (h : a.id = b.id) : a = b :=
  List.inj_on_of_nodup_map nd ha hb h

/-- An accepted `showSlide` that does not throw, from a state at rest in which at most
one slide is `active`. -/
theorem activeOk_showSlide_fresh (i : Nat) (s : State) (hT : s.isTransitioning = false)
    (hi : i < s.slides.length)
    (hcc : contentAt s.slides s.currentSlide = true) (hci : contentAt s.slides i = true)
    (hno : noComplete s.timers)
    (huniq : ∀ j k, activeAt s.slides j = true → activeAt s.slides k = true → j = k) :
    ActiveOk (showSlide (i : Int) s).state.slides (showSlide (i : Int) s).state.currentSlide
      (showSlide (i : Int) s).state.isTransitioning (showSlide (i : Int) s).state.timers := by
  have h0 : (0 : Int) ≤ (i : Int) := Int.natCast_nonneg i
  have hlt : (i : Int) < (s.slides.length : Int) := by exact_mod_cast hi
  have hci' : contentAt s.slides (i : Int).toNat = true := by rw [Int.toNat_natCast]; exact hci
  by_cases hq : queryActive s.slides = some (i : Int).toNat
  · rw [showSlide_same (i : Int) s hT h0 hlt hcc hci' hq]
    rw [Int.toNat_natCast] at hq ⊢
    rw [state_returned]
    refine ⟨fun _ => ⟨?_, ?_⟩, fun h => absurd h (by simp)⟩
    · intro t ht
      simp only [ariaUpdated_rest] at ht
      exact hno t ht
    · intro k
      simp only [state_returned, activeAt_ariaUpdated, ariaUpdated_rest]
      exact ⟨fun hk => huniq k i hk (queryActive_some hq).1, fun hk => hk ▸ (queryActive_some hq).1⟩
  · obtain ⟨f1, f2, _, f4, _, _, f7, _⟩ := showSlide_change_fields (i : Int) s hT h0 hlt hcc hci' hq
    rw [Int.toNat_natCast] at hq f1 f4 f7
    rw [f1, f2, f4]
    refine ⟨fun h => absurd h (by simp), fun _ => ?_⟩
    refine ⟨completeTimer s (queryActive s.slides), queryActive s.slides, by simp, rfl, ?_, hq, ?_⟩
    · intro u hu o' ho'
      simp only [List.mem_append, List.mem_cons, List.mem_singleton, List.not_mem_nil,
        or_false] at hu
      rcases hu with hu | rfl | rfl
      · exact absurd ho' (hno u (mem_pause_timers s u hu) o')
      · simp [revealTimer] at ho'
      · rfl
    · intro k
      rw [f7]
      constructor
      · rintro (hk | hk)
        · right
          cases hqa : queryActive s.slides with
          | none => rw [queryActive_none hqa k] at hk; exact absurd hk (by simp)
          | some j => rw [huniq j k (queryActive_some hqa).1 hk]
        · exact Or.inl hk
      · rintro (hk | hk)
        · exact Or.inr hk
        · exact Or.inl (queryActive_some hk).1

theorem activeOk_pause (s : State) (tok : TimersOk s.timers s.nextTimerId s.slideInterval)
    (ok : ActiveOk s.slides s.currentSlide s.isTransitioning s.timers) :
    ActiveOk (pauseSlideShow s).slides (pauseSlideShow s).currentSlide
      (pauseSlideShow s).isTransitioning (pauseSlideShow s).timers := by
  rw [(pause_rest s).1, (pause_rest s).2.2.2.1, (pause_rest s).2.2.2.2.1]
  refine ⟨fun hT => ⟨fun t ht => (ok.1 hT).1 t (mem_pause_timers s t ht), (ok.1 hT).2⟩, fun hT => ?_⟩
  obtain ⟨t, o, ht, hcb, hu, ho, hact⟩ := ok.2 hT
  refine ⟨t, o, ?_, hcb, fun u hu' => hu u (mem_pause_timers s u hu'), ho, hact⟩
  rw [pause_timers]
  cases hs : s.slideInterval with
  | undefined => exact ht
  | null => exact ht
  | id n =>
    simp only [List.mem_filter, bne_iff_ne, ne_eq]
    refine ⟨ht, fun hid => ?_⟩
    have := (tok.2.2.2 t ht).mpr (by rw [hs, hid])
    rw [hcb] at this
    exact absurd this (by simp)

theorem activeOk_start (s : State)
    (ok : ActiveOk s.slides s.currentSlide s.isTransitioning s.timers) :
    ActiveOk (startSlideShow s).slides (startSlideShow s).currentSlide
      (startSlideShow s).isTransitioning (startSlideShow s).timers := by
  by_cases h : s.slideInterval = Handle.null
  · rw [start_of_null s h]
    refine ⟨fun hT => ⟨?_, (ok.1 hT).2⟩, fun hT => ?_⟩
    · intro t ht o
      simp only [List.mem_append, List.mem_singleton] at ht
      rcases ht with ht | rfl
      · exact (ok.1 hT).1 t ht o
      · simp
    · obtain ⟨t, o, ht, hcb, hu, ho, hact⟩ := ok.2 hT
      refine ⟨t, o, List.mem_append_left _ ht, hcb, ?_, ho, hact⟩
      intro u hu' o' ho'
      simp only [List.mem_append, List.mem_singleton] at hu'
      rcases hu' with hu' | rfl
      · exact hu u hu' o' ho'
      · simp at ho'
  · rw [start_of_not_null s h]; exact ok

/-- Removing a timer that is not a completion timer keeps `ActiveOk`. -/
theorem activeOk_remove (slides : List Slide) (cur : Nat) (isT : Bool) (ts : List Timer)
    (nd : (ts.map Timer.id).Nodup) (t : Timer) (ht : t ∈ ts)
    (hcb : ∀ o, t.cb ≠ Callback.complete o) (ok : ActiveOk slides cur isT ts) :
    ActiveOk slides cur isT (ts.filter (fun u => u.id != t.id)) := by
  refine ⟨fun hT => ⟨fun u hu => (ok.1 hT).1 u (List.mem_of_mem_filter hu), (ok.1 hT).2⟩,
    fun hT => ?_⟩
  obtain ⟨tc, o, htc, hc, hu, ho, hact⟩ := ok.2 hT
  refine ⟨tc, o, ?_, hc, fun u hu' => hu u (List.mem_of_mem_filter hu'), ho, hact⟩
  simp only [List.mem_filter, bne_iff_ne, ne_eq]
  refine ⟨htc, fun hid => ?_⟩
  have := timer_eq_of_id nd htc ht hid
  rw [this] at hc
  exact hcb o hc

/-! ## Reachable states are stuck or consistent -/

theorem restOk_showSlide (i : Int) (s : State) (h : RestOk s) : RestOk (showSlide i s).state := by
  by_cases hrej : s.isTransitioning = true ∨ i < 0 ∨ (s.slides.length : Int) ≤ i
  · rw [showSlide_rejected i s hrej]; exact h
  · simp only [not_or, Bool.not_eq_true, not_lt, not_le] at hrej
    obtain ⟨hT, h0, hN⟩ := hrej
    rcases h with hs | ⟨hp, ha⟩
    · rw [hs.1] at hT; exact absurd hT (by simp)
    · obtain ⟨hno, hact⟩ := ha.1 hT
      have hcc : contentAt s.slides s.currentSlide = true := contentAt_of_ariaVisible hp.1 hp.2.2.1
      cases hci : contentAt s.slides i.toNat with
      | true =>
        right
        refine ⟨pageOk_showSlide i s hT h0 hN hcc hci, ?_⟩
        have := activeOk_showSlide_fresh i.toNat s hT (by omega) hcc hci hno
          (fun j k hj hk => by rw [(hact j).mp hj, (hact k).mp hk])
        rw [Int.toNat_of_nonneg h0] at this
        exact this
      | false =>
        left
        obtain ⟨s', hs', t1, _, t3, _⟩ := showSlide_threw i s hT h0 hN (Or.inr hci)
        rw [hs', state_threw]
        exact ⟨t1, by rw [t3]; exact hno⟩

theorem restOk_pause (s : State) (tok : TimersOk s.timers s.nextTimerId s.slideInterval)
    (h : RestOk s) : RestOk (pauseSlideShow s) := by
  rcases h with hs | ⟨hp, ha⟩
  · left
    exact ⟨by rw [(pause_rest s).2.2.2.2.1]; exact hs.1,
      fun t ht => hs.2 t (mem_pause_timers s t ht)⟩
  · right
    refine ⟨?_, activeOk_pause s tok ha⟩
    rw [(pause_rest s).1, (pause_rest s).2.1, (pause_rest s).2.2.1, (pause_rest s).2.2.2.1]
    exact hp

theorem restOk_start (s : State) (h : RestOk s) : RestOk (startSlideShow s) := by
  by_cases hn : s.slideInterval = Handle.null
  · rcases h with hs | ⟨hp, ha⟩
    · left
      rw [start_of_null s hn]
      refine ⟨hs.1, ?_⟩
      intro t ht o
      simp only [List.mem_append, List.mem_singleton] at ht
      rcases ht with ht | rfl
      · exact hs.2 t ht o
      · simp
    · right
      have := activeOk_start s ha
      rw [start_of_null s hn] at this ⊢
      exact ⟨hp, this⟩
  · rw [start_of_not_null s hn]; exact h

theorem restOk_nextSlideFunc (s : State) (h : RestOk s) : RestOk (nextSlideFunc s).state := by
  unfold nextSlideFunc nextSlide
  split
  · exact restOk_showSlide _ s h
  · exact h

theorem restOk_fire (t : Timer) (s : State) (ht : t ∈ s.timers)
    (tok : TimersOk s.timers s.nextTimerId s.slideInterval) (h : RestOk s) :
    RestOk (fire t s).state := by
  cases hcb : t.cb with
  | reveal n =>
    rw [fire_reveal t n s hcb, state_returned]
    rcases h with hs | ⟨hp, ha⟩
    · left
      exact ⟨hs.1, fun u hu => hs.2 u (List.mem_of_mem_filter hu)⟩
    · right
      refine ⟨hp.modify revealContent revealContent_aria n, ?_⟩
      have := activeOk_remove s.slides s.currentSlide s.isTransitioning s.timers tok.1 t ht
        (by simp [hcb]) ha
      refine ⟨fun hT => ⟨(this.1 hT).1, fun k => ?_⟩, fun hT => ?_⟩
      · simp only [activeAt_modify_same revealContent (fun _ => rfl)]
        exact (this.1 hT).2 k
      · obtain ⟨tc, o, h1, h2, h3, h4, h5⟩ := this.2 hT
        refine ⟨tc, o, h1, h2, h3, h4, fun k => ?_⟩
        simp only [activeAt_modify_same revealContent (fun _ => rfl)]
        exact h5 k
  | complete o' =>
    obtain ⟨s', g0, g1, g2, g3, g4, g5, g6⟩ := fire_complete t o' s hcb
    rw [g0, state_returned]
    rcases h with hs | ⟨hp, ha⟩
    · exact absurd hcb (hs.2 t ht o')
    · right
      refine ⟨by rw [g2, g3, g4, g5]; exact hp.cleanUpOutgoing o', ?_⟩
      rw [g1, g2, g3]
      cases hT : s.isTransitioning with
      | false => exact absurd hcb ((ha.1 hT).1 t ht o')
      | true =>
        obtain ⟨tc, o, _, hc, hu, ho, hact⟩ := ha.2 hT
        have htc : t = tc := hu t ht o' hcb
        have hoo : o' = o := by
          rw [htc, hc] at hcb
          exact (Callback.complete.inj hcb).symm
        refine ⟨fun _ => ⟨?_, ?_⟩, fun h => absurd h (by simp)⟩
        · intro u hu' o2 ho2
          rcases g6 u hu' with ⟨hm, hid⟩ | hadv
          · have := hu u hm o2 ho2
            rw [this, htc] at hid
            exact hid rfl
          · rw [hadv] at ho2
            exact absurd ho2 (by simp)
        · intro k
          rw [activeAt_cleanUpOutgoing, hact, hoo]
          constructor
          · rintro ⟨hk | hk, hne⟩
            · exact hk
            · exact absurd hk hne
          · intro hk
            subst hk
            exact ⟨Or.inl rfl, ho⟩
  | advance =>
    have h2 : RestOk
        { s with timers := s.timers.filter (fun u => u.id != t.id), now := max s.now t.due } := by
      rcases h with hs | ⟨hp, ha⟩
      · left
        exact ⟨hs.1, fun u hu => hs.2 u (List.mem_of_mem_filter hu)⟩
      · right
        exact ⟨hp, activeOk_remove s.slides s.currentSlide s.isTransitioning s.timers tok.1 t ht
          (by simp [hcb]) ha⟩
    unfold fire
    rw [hcb]
    exact restOk_nextSlideFunc _ h2

theorem restOk_step (e : Event) (s : State)
    (h : TimersOk s.timers s.nextTimerId s.slideInterval ∧ RestOk s) :
    TimersOk (step e s).timers (step e s).nextTimerId (step e s).slideInterval ∧
      RestOk (step e s) :=
  step_preserves
    (fun s => TimersOk s.timers s.nextTimerId s.slideInterval ∧ RestOk s)
    (fun i s hs => ⟨timersOk_showSlide i s hs.1, restOk_showSlide i s hs.2⟩)
    (fun s hs => ⟨timersOk_pause s hs.1, restOk_pause s hs.1 hs.2⟩)
    (fun s hs => ⟨timersOk_start s hs.1, restOk_start s hs.2⟩)
    (fun t s ht hs => ⟨timersOk_fire t s hs.1, restOk_fire t s ht hs.1 hs.2⟩)
    (fun _ _ _ hs => hs) (fun _ _ hs => hs) e s h

theorem restOk_init (v : View) (s0 : State) (h0 : init v = some s0)
    (hv : atMostOneActive v.slides) : RestOk s0 := by
  obtain ⟨hc, rfl⟩ := init_eq_some v s0 h0
  have hN : 0 < v.slides.length := contentAt_lt hc
  have hT : (ariaUpdated none 0 (declared v)).isTransitioning = false := by
    simp [ariaUpdated_rest, declared]
  have hcc : contentAt (ariaUpdated none 0 (declared v)).slides
      (ariaUpdated none 0 (declared v)).currentSlide = true := by
    rw [(ariaUpdated_rest none 0 (declared v)).2.2.2.1, contentAt_ariaUpdated]
    exact hc
  have hci : contentAt (ariaUpdated none 0 (declared v)).slides 0 = true := by
    rw [contentAt_ariaUpdated]; exact hc
  have hlen : (0 : Nat) < (ariaUpdated none 0 (declared v)).slides.length := by
    rw [(ariaUpdated_rest none 0 (declared v)).2.2.2.2.2.2.2]; exact hN
  have ha := activeOk_showSlide_fresh 0 (ariaUpdated none 0 (declared v)) hT hlen hcc hci
    (by simp [ariaUpdated_rest, declared, noComplete])
    (by
      intro j k hj hk
      rw [activeAt_ariaUpdated] at hj hk
      exact hv j k hj hk)
  have hp := pageOk_showSlide 0 (ariaUpdated none 0 (declared v)) hT (le_refl _)
    (by exact_mod_cast hlen) hcc hci
  have := restOk_start _ (Or.inr ⟨hp, ha⟩)
  exact this

theorem restOk_of_reachable (v : View) (s : State) (hv : atMostOneActive v.slides)
    (h : Reachable v s) : RestOk s := by
  have : TimersOk s.timers s.nextTimerId s.slideInterval ∧ RestOk s := by
    induction h with
    | init h0 => exact ⟨(inv_init v _ h0).timers, restOk_init v _ h0 hv⟩
    | step e _ ih => exact restOk_step e _ ih
  exact this.2

/-! ## C4: `showSlide` on the current slide -/

theorem modify_aria_self (l : List Slide) (c : Nat) (h : ariaVisibleAt l c) :
    (l.modify (setAriaHidden true) c).modify (setAriaHidden false) c = l := by
  apply List.ext_getElem?
  intro n
  rw [List.getElem?_modify, List.getElem?_modify]
  cases hn : l[n]? with
  | none => rfl
  | some a =>
    simp only [Option.map_eq_map, Option.map_some', Option.some.injEq]
    by_cases hc : c = n
    · subst hc
      obtain ⟨h1, h2⟩ := h a hn
      obtain ⟨act, lv, dsp, op, ah, ct⟩ := a
      simp only at h1 h2
      cases ct with
      | none => simp at h2
      | some cc =>
        obtain ⟨cah, hd, bt⟩ := cc
        simp only [Option.map_some', Option.some.injEq] at h2
        simp [setAriaHidden, h1, h2]
    · simp [hc]

theorem updateDotsFrom_self (dots : List Dot) (c : Nat) (h : dotsSelect dots c) :
    updateDotsFrom c 0 dots = dots := by
  apply List.ext_getElem?
  intro n
  rw [getElem?_updateDotsFrom]
  cases hn : dots[n]? with
  | none => rfl
  | some d =>
    obtain ⟨h1, h2⟩ := h n d hn
    cases d
    simp only at h1 h2
    simp only [Option.map_some', Nat.zero_add, h1, h2, Option.some.injEq, Dot.mk.injEq, true_and]
    by_cases hc : n = c <;> simp [hc]

/-- C4, amended: in a state reachable from a completed `init` on a page whose markup flags
at most one slide `active`, and not transitioning, `showSlide(currentSlide)` returns
leaving the state it was given: `currentSlide`, `isTransitioning` (false), `slideInterval`,
the pending timers and the timer counter, every slide's class, style and `aria-hidden`
flags, every dot's `aria-selected` and `tabindex`, and the live-region text are unchanged;
so calling it twice equals calling it once. -/
theorem showSlide_current_noop (v : View) (s : State) (hv : atMostOneActive v.slides)
    (h : Reachable v s) (hT : s.isTransitioning = false) :
    showSlide (s.currentSlide : Int) s = Outcome.returned s ∧
    showSlide (s.currentSlide : Int) (showSlide (s.currentSlide : Int) s).state =
      showSlide (s.currentSlide : Int) s := by
  have rest := restOk_of_reachable v s hv h
  rcases rest with hs | ⟨⟨hcur, hdots, haria, hlive⟩, act⟩
  · rw [hs.1] at hT; exact absurd hT (by simp)
  · have hq : queryActive s.slides = some s.currentSlide := queryActive_of_unique (act.1 hT).2
    have hcc : contentAt s.slides s.currentSlide = true := contentAt_of_ariaVisible hcur haria
    have key : showSlide (s.currentSlide : Int) s = Outcome.returned s := by
      rw [showSlide_same (s.currentSlide : Int) s hT (Int.natCast_nonneg _)
        (by exact_mod_cast hcur) hcc (by rw [Int.toNat_natCast]; exact hcc)
        (by rw [Int.toNat_natCast]; exact hq)]
      rw [Int.toNat_natCast]
      obtain ⟨slides, dots, live, tab, cur, si, isT, tx, ty, timers, next, now⟩ := s
      simp only at hT hdots haria hlive
      simp only [ariaUpdated, updateDotsAndIndicator, Outcome.returned.injEq, State.mk.injEq,
        and_true, true_and]
      refine ⟨modify_aria_self slides cur haria, updateDotsFrom_self dots cur hdots, ?_, hT.symm⟩
      cases live with
      | none => rfl
      | some txt =>
        simp only [Option.map_some', Option.some.injEq, List.length_modify]
        exact (hlive txt rfl).symm
    exact ⟨key, by rw [key, state_returned, key]⟩

theorem sampleView_one_active : atMostOneActive (sampleView [true, false, false]).slides := by
  intro j k hj hk
  have h0 : ∀ n, activeAt (sampleView [true, false, false]).slides n = true → n = 0 := by
    intro n hn
    match n with
    | 0 => rfl
    | 1 => exact absurd hn (by decide)
    | 2 => exact absurd hn (by decide)
    | n + 3 =>
      have := activeAt_lt hn
      have hlen : (sampleView [true, false, false]).slides.length = 3 := by decide
      omega
  rw [h0 j hj, h0 k hk]

theorem showSlide_current_noop_witness :
    (atMostOneActive (sampleView [true, false, false]).slides ∧
      Reachable (sampleView [true, false, false]) sampleStart ∧
      sampleStart.isTransitioning = false) ∧
    showSlide (sampleStart.currentSlide : Int) sampleStart = Outcome.returned sampleStart :=
  ⟨⟨sampleView_one_active, Reachable.init sampleStart_init, by decide⟩,
    (showSlide_current_noop _ sampleStart sampleView_one_active
      (Reachable.init sampleStart_init) (by decide)).1⟩

/-- C4 as stated fails when the markup flags two slides `active`: on the three-slide page
with slides 0 and 1 flagged, after a click on dot 2 and the end of that transition the
state is reachable and at rest on slide 2, yet `showSlide(2)` starts a transition (the
first `active` slide is slide 1), cancels the pending auto-advance timer and schedules two
callbacks. -/
theorem showSlide_current_two_active :
    Reachable (sampleView [true, true, false]) sampleTwoActive ∧
    sampleTwoActive.isTransitioning = false ∧ sampleTwoActive.currentSlide = 2 ∧
    (showSlide (sampleTwoActive.currentSlide : Int) sampleTwoActive).state.isTransitioning = true ∧
    (advanceTimers sampleTwoActive).length = 1 ∧
    advanceTimers (showSlide (sampleTwoActive.currentSlide : Int) sampleTwoActive).state = [] ∧
    (showSlide (sampleTwoActive.currentSlide : Int) sampleTwoActive).state.timers.length = 2 ∧
    showSlide (sampleTwoActive.currentSlide : Int) sampleTwoActive ≠
      Outcome.returned sampleTwoActive := by
  refine ⟨Reachable.step _ (Reachable.step _ (Reachable.step _
    (Reachable.init sampleStartTwoActive_init))), by decide, by decide, by decide, by decide,
    by decide, by decide, ?_⟩
  intro h
  have h2 := congrArg (fun o => o.state.isTransitioning) h
  revert h2
  decide

/-! ## C9: `init` on markup whose first slide is already active -/

theorem quiet_run (es : List Event) (s : State) (ht : s.timers = [])
    (hes : ∀ e ∈ es, (∃ id, e = Event.timer id) ∨ (∃ ms, e = Event.wait ms)) :
    (es.foldl (fun st e => step e st) s).currentSlide = s.currentSlide ∧
    (es.foldl (fun st e => step e st) s).timers = [] := by
  induction es generalizing s with
  | nil => exact ⟨rfl, ht⟩
  | cons e rest ih =>
    rw [List.foldl_cons]
    have hstep : (step e s).currentSlide = s.currentSlide ∧ (step e s).timers = [] := by
      rcases hes e (by simp) with ⟨id, rfl⟩ | ⟨ms, rfl⟩
      · simp [step, handle, fireTimer, ht, state_returned]
      · exact ⟨rfl, ht⟩
    obtain ⟨a, b⟩ := ih (step e s) hstep.2 (fun e' he' => hes e' (by simp [he']))
    exact ⟨by rw [a, hstep.1], b⟩

/-- C9, the code at the failing input: when the markup flags slide 0 `active` (it is the
first `active` slide), either slide 0 has no `.hero-content` and `init()` throws, or
`init()` completes with `currentSlide = 0` and slide 0 `active`, but `slideInterval` is
still `undefined` and no timer at all is pending; whatever timers fire and however long
one waits, without input `currentSlide` stays 0. -/
theorem init_first_slide_active (v : View) (h : queryActive v.slides = some 0) :
    (contentAt v.slides 0 = false ∧ init v = none) ∨
    ∃ s0, init v = some s0 ∧ s0.currentSlide = 0 ∧ activeAt s0.slides 0 = true ∧
      s0.isTransitioning = false ∧ s0.slideInterval = Handle.undefined ∧ s0.timers = [] ∧
      advanceTimers s0 = [] ∧
      ∀ es : List Event, (∀ e ∈ es, (∃ id, e = Event.timer id) ∨ (∃ ms, e = Event.wait ms)) →
        (es.foldl (fun st e => step e st) s0).currentSlide = 0 := by
  cases hc : contentAt v.slides 0 with
  | false =>
    left
    exact ⟨rfl, by rw [init_eq, hc]; rfl⟩
  | true =>
    right
    have hact := (queryActive_some h).1
    have hN : 0 < v.slides.length := activeAt_lt hact
    have hq : queryActive (ariaUpdated none 0 (declared v)).slides = some (0 : Int).toNat := by
      rw [queryActive_ariaUpdated]; exact h
    have hs := showSlide_same 0 (ariaUpdated none 0 (declared v))
      (by simp [ariaUpdated_rest, declared]) (le_refl _)
      (by rw [(ariaUpdated_rest none 0 (declared v)).2.2.2.2.2.2.2]; exact_mod_cast hN)
      (by rw [(ariaUpdated_rest none 0 (declared v)).2.2.2.1, contentAt_ariaUpdated]; exact hc)
      (by rw [contentAt_ariaUpdated]; exact hc) hq
    have hinit : init v = some (started v) := by rw [init_eq, hc]; rfl
    have hstart : startSlideShow (showSlide 0 (ariaUpdated none 0 (declared v))).state =
        (showSlide 0 (ariaUpdated none 0 (declared v))).state := by
      apply start_of_not_null
      rw [hs]
      simp [state_returned, ariaUpdated_rest, declared]
    refine ⟨_, hinit, ?_, ?_, ?_, ?_, ?_, ?_, ?_⟩
    · unfold started; rw [hstart, hs]; simp [state_returned, ariaUpdated_rest]
    · unfold started; rw [hstart, hs]
      simp only [state_returned, Int.toNat_zero, activeAt_ariaUpdated]
      exact hact
    · unfold started; rw [hstart, hs]; rfl
    · unfold started; rw [hstart, hs]; simp [state_returned, ariaUpdated_rest, declared]
    · unfold started; rw [hstart, hs]; simp [state_returned, ariaUpdated_rest, declared]
    · unfold started; rw [hstart, hs]
      simp [advanceTimers, state_returned, ariaUpdated_rest, declared]
    · intro es hes
      have hq := quiet_run es (started v)
        (by unfold started; rw [hstart, hs]; simp [state_returned, ariaUpdated_rest, declared]) hes
      rw [hq.1]
      unfold started; rw [hstart, hs]
      simp [state_returned, ariaUpdated_rest]

theorem init_first_slide_active_witness :
    queryActive (sampleView [true, false, false]).slides = some 0 ∧
    ∃ s0, init (sampleView [true, false, false]) = some s0 ∧ s0.currentSlide = 0 ∧
      activeAt s0.slides 0 = true ∧
      s0.isTransitioning = false ∧ s0.slideInterval = Handle.undefined ∧ s0.timers = [] ∧
      advanceTimers s0 = [] ∧
      ∀ es : List Event, (∀ e ∈ es, (∃ id, e = Event.timer id) ∨ (∃ ms, e = Event.wait ms)) →
        (es.foldl (fun st e => step e st) s0).currentSlide = 0 :=
  ⟨by decide, (init_first_slide_active _ (by decide)).resolve_left (by decide)⟩

/-- What `init` does when slide 0 has its `.hero-content` and is not the first `active`
slide of the markup: the transition to slide 0 starts, `pauseSlideShow` turns
`slideInterval` into `null`, and `startSlideShow` schedules the one auto-advance timer. -/
theorem init_other_markup (v : View) (hc : contentAt v.slides 0 = true)
    (h : queryActive v.slides ≠ some 0) :
    ∃ s0, init v = some s0 ∧ s0.currentSlide = 0 ∧ activeAt s0.slides 0 = true ∧
      advanceTimers s0 = [{ id := v.nextTimerId + 2, due := v.now + 3200, cb := Callback.advance }] ∧
      s0.slideInterval = Handle.id (v.nextTimerId + 2) := by
  have hN : 0 < v.slides.length := contentAt_lt hc
  have hq : queryActive (ariaUpdated none 0 (declared v)).slides ≠ some (0 : Int).toNat := by
    rw [queryActive_ariaUpdated]; exact h
  obtain ⟨f1, _, f3, f4, f5, f6, f7, _⟩ := showSlide_change_fields 0
    (ariaUpdated none 0 (declared v))
    (by simp [ariaUpdated_rest, declared]) (le_refl _)
    (by rw [(ariaUpdated_rest none 0 (declared v)).2.2.2.2.2.2.2]; exact_mod_cast hN)
    (by rw [(ariaUpdated_rest none 0 (declared v)).2.2.2.1, contentAt_ariaUpdated]; exact hc)
    (by rw [contentAt_ariaUpdated]; exact hc) hq
  have hinit : init v = some (started v) := by rw [init_eq, hc]; rfl
  have hp : (pauseSlideShow (ariaUpdated none 0 (declared v))).timers = [] := by
    rw [pause_timers]
    simp [ariaUpdated_rest, declared]
  rw [hp] at f4
  refine ⟨_, hinit, ?_, ?_, ?_, ?_⟩
  · unfold started; rw [start_of_null _ f3]; exact f1
  · unfold started; rw [start_of_null _ f3]
    exact (f7 0).mpr (Or.inr rfl)
  · unfold started; rw [start_of_null _ f3]
    simp only [advanceTimers, f4, f5, f6, ariaUpdated_rest]
    simp [List.filter, revealTimer, completeTimer, declared, VISIBLE_DURATION, SLIDE_DURATION,
      FADE_DURATION]
  · unfold started; rw [start_of_null _ f3]
    simp only [f5, ariaUpdated_rest]
    rfl

/-! ## A throwing `showSlide` leaves the carousel stuck -/

theorem stuckLike_showSlide (s s' : State) (i : Int) (h : StuckLike s s') :
    StuckLike s (showSlide i s').state := by
  rw [showSlide_rejected i s' (Or.inl h.1.1)]; exact h

theorem stuckLike_pause (s s' : State) (h : StuckLike s s') : StuckLike s (pauseSlideShow s') := by
  obtain ⟨⟨h1, h2⟩, h3, h4, h5, h6, h7, h8⟩ := h
  obtain ⟨p1, p2, p3, p4, p5, _, _⟩ := pause_rest s'
  refine ⟨⟨by rw [p5]; exact h1, fun t ht => h2 t (mem_pause_timers s' t ht)⟩,
    by rw [p4]; exact h3, by rw [p2]; exact h4, by rw [p3]; exact h5,
    by rw [p1]; exact h6, by rw [p1]; exact h7, by rw [p1]; exact h8⟩

theorem stuckLike_start (s s' : State) (h : StuckLike s s') : StuckLike s (startSlideShow s') := by
  by_cases hn : s'.slideInterval = Handle.null
  · rw [start_of_null s' hn]
    obtain ⟨⟨h1, h2⟩, h3, h4, h5, h6, h7, h8⟩ := h
    refine ⟨⟨h1, ?_⟩, h3, h4, h5, h6, h7, h8⟩
    intro t ht o
    simp only [List.mem_append, List.mem_singleton] at ht
    rcases ht with ht | rfl
    · exact h2 t ht o
    · simp
  · rw [start_of_not_null s' hn]; exact h

theorem stuckLike_fire (s s' : State) (t : Timer) (hcb : ∀ o, t.cb ≠ Callback.complete o)
    (h : StuckLike s s') : StuckLike s (fire t s').state := by
  obtain ⟨⟨h1, h2⟩, h3, h4, h5, h6, h7, h8⟩ := h
  cases hc : t.cb with
  | reveal n =>
    rw [fire_reveal t n s' hc, state_returned]
    refine ⟨⟨h1, fun u hu => h2 u (List.mem_of_mem_filter hu)⟩, h3, h4, h5,
      by simp only [List.length_modify]; exact h6, ?_, ?_⟩
    · intro k
      simp only [activeAt_modify_same revealContent (fun _ => rfl)]
      exact h7 k
    · intro k
      simp only [contentAt_modify revealContent revealContent_content]
      exact h8 k
  | complete o => exact absurd hc (hcb o)
  | advance =>
    unfold fire
    rw [hc]
    show StuckLike s (nextSlideFunc _).state
    unfold nextSlideFunc
    rw [if_neg (by simp [h1]), state_returned]
    exact ⟨⟨h1, fun u hu => h2 u (List.mem_of_mem_filter hu)⟩, h3, h4, h5, h6, h7, h8⟩

theorem stuckLike_step (s s' : State) (e : Event) (h : StuckLike s s') :
    StuckLike s (step e s') :=
  step_preserves (StuckLike s) (fun i s' hs => stuckLike_showSlide s s' i hs)
    (fun s' hs => stuckLike_pause s s' hs) (fun s' hs => stuckLike_start s s' hs)
    (fun t s' ht hs => stuckLike_fire s s' t (hs.1.2 t ht) hs)
    (fun _ _ _ hs => hs) (fun _ _ hs => hs) e s' h

theorem stuckLike_run (s s' : State) (es : List Event) (h : StuckLike s s') :
    StuckLike s (run es s') := by
  unfold run
  induction es generalizing s' with
  | nil => exact h
  | cons e rest ih =>
    rw [List.foldl_cons]
    exact ih (step e s') (stuckLike_step s s' e h)

theorem stuckLike_foldl_fire (s : State) (l : List Timer)
    (hl : ∀ t ∈ l, ∀ o, t.cb ≠ Callback.complete o) (s' : State) (h : StuckLike s s') :
    StuckLike s (l.foldl (fun st t => (fire t st).state) s') := by
  induction l generalizing s' with
  | nil => exact h
  | cons t rest ih =>
    rw [List.foldl_cons]
    exact ih (fun u hu => hl u (by simp [hu])) _ (stuckLike_fire s s' t (hl t (by simp)) h)

theorem stuckLike_window (s s' : State) (h : StuckLike s s') :
    StuckLike s (fadeWindowElapses s') := by
  unfold fadeWindowElapses
  exact stuckLike_foldl_fire s _ (fun t ht => h.1.2 t (List.mem_of_mem_filter ht)) s' h

theorem stuckLike_advanceOnce (s s' : State) (b : Bool) (h : StuckLike s s') :
    StuckLike s (advanceOnce s' b) := by
  unfold advanceOnce
  apply stuckLike_window
  cases b with
  | false => exact stuckLike_showSlide s s' _ h
  | true =>
    simp only [if_true]
    unfold nextSlideFunc
    rw [if_neg (by simp [h.1.1]), state_returned]
    exact h

/-- From a state at rest with no completion callback pending, `showSlide(i)` on a valid
slide without `.hero-content` throws and leaves a stuck state that differs from `s` in
`isTransitioning`, `currentSlide` and `aria-hidden` attributes only. -/
theorem showSlide_bare (s : State) (i : Nat) (hT : s.isTransitioning = false)
    (hi : i < s.slides.length) (hno : noComplete s.timers)
    (hbare : contentAt s.slides i = false) :
    ∃ s', showSlide (i : Int) s = Outcome.threw s' ∧ Stuck s' ∧ s'.currentSlide = i ∧
      s'.timers = s.timers ∧ s'.nextTimerId = s.nextTimerId ∧ s'.dots = s.dots ∧
      s'.slideIndicator = s.slideIndicator ∧ s'.slides.length = s.slides.length ∧
      (∀ k, activeAt s'.slides k = activeAt s.slides k) := by
  obtain ⟨s', hs', t1, t2, t3, t4, _, t6, t7, t8, t9, _⟩ :=
    showSlide_threw (i : Int) s hT (Int.natCast_nonneg i) (by exact_mod_cast hi)
      (Or.inr (by rw [Int.toNat_natCast]; exact hbare))
  rw [Int.toNat_natCast] at t2
  exact ⟨s', hs', ⟨t1, by rw [t3]; exact hno⟩, t2, t3, t4, t6, t7, t8, t9⟩

/-! ## C1, C3, C5, C6 on a page with a slide that has no `.hero-content` -/

/-- C1, the code at the failing input: in a state at rest whose only `active` slide is
`slides[currentSlide]`, with no completion callback pending, `showSlide(i)` for a valid
`i ≠ currentSlide` whose slide has no `.hero-content` sets `currentSlide = i` and then
throws (line 40) before anything is scheduled: the pending timers are unchanged, and
whatever events follow, no completion callback ever runs, `isTransitioning` stays true and
the only `active` slide is still the outgoing one, not slide `i`. -/
theorem showSlide_transition_bare (s : State) (i : Nat) (_hN : 2 ≤ s.slides.length)
    (hT : s.isTransitioning = false)
    (hact : ∀ k, activeAt s.slides k = true ↔ k = s.currentSlide)
    (hi : i < s.slides.length) (hne : i ≠ s.currentSlide)
    (hno : noComplete s.timers) (hbare : contentAt s.slides i = false) :
    ∃ s', showSlide (i : Int) s = Outcome.threw s' ∧ s'.currentSlide = i ∧
      s'.timers = s.timers ∧ s'.nextTimerId = s.nextTimerId ∧
      ∀ es : List Event,
        (run es s').isTransitioning = true ∧ noComplete (run es s').timers ∧
        (run es s').currentSlide = i ∧
        (∀ k, activeAt (run es s').slides k = true ↔ k = s.currentSlide) ∧
        activeAt (run es s').slides i = false := by
  obtain ⟨s', hs', hst, c1, c2, c3, c4, c5, c6, c7⟩ := showSlide_bare s i hT hi hno hbare
  refine ⟨s', hs', c1, c2, c3, ?_⟩
  intro es
  obtain ⟨⟨r1, r2⟩, r3, _, _, _, r7, _⟩ :=
    stuckLike_run s' s' es ⟨hst, rfl, rfl, rfl, rfl, fun _ => rfl, fun _ => rfl⟩
  have hall : ∀ k, activeAt (run es s').slides k = true ↔ k = s.currentSlide := by
    intro k; rw [r7, c7]; exact hact k
  refine ⟨r1, r2, by rw [r3, c1], hall, ?_⟩
  cases hb : activeAt (run es s').slides i with
  | false => rfl
  | true => exact absurd ((hall i).mp hb) hne

theorem sampleStartBare_active :
    ∀ k, activeAt sampleStartBare.slides k = true ↔ k = sampleStartBare.currentSlide := by
  intro k
  match k with
  | 0 => decide
  | 1 => decide
  | 2 => decide
  | k + 3 =>
    have hlen : sampleStartBare.slides.length = 3 := by decide
    have hcur : sampleStartBare.currentSlide = 0 := by decide
    constructor
    · intro h
      have := activeAt_lt h
      omega
    · intro h
      omega

theorem sampleStartBare_noComplete : noComplete sampleStartBare.timers := by
  have : sampleStartBare.timers = [] := by decide
  intro t ht
  rw [this] at ht
  exact absurd ht (List.not_mem_nil t)

theorem showSlide_transition_bare_witness :
    (2 ≤ sampleStartBare.slides.length ∧ sampleStartBare.isTransitioning = false ∧
      (∀ k, activeAt sampleStartBare.slides k = true ↔ k = sampleStartBare.currentSlide) ∧
      1 < sampleStartBare.slides.length ∧ 1 ≠ sampleStartBare.currentSlide ∧
      noComplete sampleStartBare.timers ∧ contentAt sampleStartBare.slides 1 = false ∧
      Reachable sampleViewBare sampleStartBare) ∧
    ∃ s', showSlide ((1 : Nat) : Int) sampleStartBare = Outcome.threw s' ∧ s'.currentSlide = 1 ∧
      s'.timers = sampleStartBare.timers ∧ s'.nextTimerId = sampleStartBare.nextTimerId ∧
      ∀ es : List Event,
        (run es s').isTransitioning = true ∧ noComplete (run es s').timers ∧
        (run es s').currentSlide = 1 ∧
        (∀ k, activeAt (run es s').slides k = true ↔ k = sampleStartBare.currentSlide) ∧
        activeAt (run es s').slides 1 = false :=
  ⟨⟨by decide, by decide, sampleStartBare_active, by decide, by decide,
      sampleStartBare_noComplete, by decide, Reachable.init sampleStartBare_init⟩,
    showSlide_transition_bare sampleStartBare 1 (by decide) (by decide) sampleStartBare_active
      (by decide) (by decide) sampleStartBare_noComplete (by decide)⟩

/-- C3, the code at the failing input: in a state at rest with no completion callback
pending, `showSlide(i)` for a valid `i` whose slide has no `.hero-content` passes the guard
of line 58, sets `isTransitioning = true` and throws (line 40) before the completion
callback is scheduled; whatever events follow, `isTransitioning` stays true and every
`showSlide` call, valid index or not, is rejected. -/
theorem transition_guard_bare (s : State) (i : Nat) (hT : s.isTransitioning = false)
    (hi : i < s.slides.length) (hno : noComplete s.timers)
    (hbare : contentAt s.slides i = false) :
    ∃ s', showSlide (i : Int) s = Outcome.threw s' ∧ s'.isTransitioning = true ∧
      s'.currentSlide = i ∧ s'.timers = s.timers ∧
      ∀ es : List Event,
        (run es s').isTransitioning = true ∧ noComplete (run es s').timers ∧
        ∀ j : Int, showSlide j (run es s') = Outcome.returned (run es s') := by
  obtain ⟨s', hs', hst, c1, c2, _⟩ := showSlide_bare s i hT hi hno hbare
  refine ⟨s', hs', hst.1, c1, c2, ?_⟩
  intro es
  obtain ⟨⟨r1, r2⟩, _⟩ :=
    stuckLike_run s' s' es ⟨hst, rfl, rfl, rfl, rfl, fun _ => rfl, fun _ => rfl⟩
  exact ⟨r1, r2, fun j => showSlide_rejected j _ (Or.inl r1)⟩

theorem transition_guard_bare_witness :
    (sampleStartBare.isTransitioning = false ∧ 1 < sampleStartBare.slides.length ∧
      noComplete sampleStartBare.timers ∧ contentAt sampleStartBare.slides 1 = false ∧
      Reachable sampleViewBare sampleStartBare) ∧
    ∃ s', showSlide ((1 : Nat) : Int) sampleStartBare = Outcome.threw s' ∧
      s'.isTransitioning = true ∧ s'.currentSlide = 1 ∧ s'.timers = sampleStartBare.timers ∧
      ∀ es : List Event,
        (run es s').isTransitioning = true ∧ noComplete (run es s').timers ∧
        ∀ j : Int, showSlide j (run es s') = Outcome.returned (run es s') :=
  ⟨⟨by decide, by decide, sampleStartBare_noComplete, by decide,
      Reachable.init sampleStartBare_init⟩,
    transition_guard_bare sampleStartBare 1 (by decide) (by decide) sampleStartBare_noComplete
      (by decide)⟩

theorem nextSlide_index (s : State) (hN : 1 ≤ s.slides.length) :
    Int.tmod ((s.currentSlide : Int) + 1) (s.slides.length : Int) =
      (((s.currentSlide + 1) % s.slides.length : Nat) : Int) := by
  rw [Int.tmod_eq_emod (by omega) (by omega)]
  norm_cast

theorem prevSlide_index (s : State) (hN : 1 ≤ s.slides.length) :
    Int.tmod ((s.currentSlide : Int) - 1 + (s.slides.length : Int)) (s.slides.length : Int) =
      (((s.currentSlide + (s.slides.length - 1)) % s.slides.length : Nat) : Int) := by
  rw [Int.tmod_eq_emod (by omega) (by omega)]
  have : (s.currentSlide : Int) - 1 + (s.slides.length : Int) =
      ((s.currentSlide + (s.slides.length - 1) : Nat) : Int) := by
    push_cast [Nat.cast_sub hN]
    ring
  rw [this]
  norm_cast

theorem advance_call (s : State) (b : Bool) (hN : 1 ≤ s.slides.length)
    (hT : s.isTransitioning = false) :
    (if b then nextSlideFunc s else nextSlide s) =
      showSlide (((s.currentSlide + 1) % s.slides.length : Nat) : Int) s := by
  unfold nextSlideFunc
  simp only [hT, Bool.not_false, if_true, ite_self]
  unfold nextSlide
  rw [nextSlide_index s hN]

theorem stuckLike_fold_advance (s s' : State) (how : List Bool) (h : StuckLike s s') :
    StuckLike s (how.foldl advanceOnce s') := by
  induction how generalizing s' with
  | nil => exact h
  | cons b rest ih =>
    rw [List.foldl_cons]
    exact ih _ (stuckLike_advanceOnce s s' b h)

/-- C5, the code at the failing input: from a state at rest with no completion callback
pending, when the next slide has no `.hero-content` the first advance sets `currentSlide`
to `(c + 1) mod N` and throws; every further advance, direct or by the timer callback, is
rejected, so after any number `k ≥ 1` of advances `currentSlide` is `(c + 1) mod N`, not
`(c + k) mod N`: with three slides starting at slide 0, two advances end on slide 1 and
so do three. -/
theorem navigation_stops_bare (s : State) (_hN : 1 ≤ s.slides.length)
    (_hc : s.currentSlide < s.slides.length) (hT : s.isTransitioning = false)
    (hno : noComplete s.timers)
    (hbare : contentAt s.slides ((s.currentSlide + 1) % s.slides.length) = false) :
    (∀ (b : Bool) (how : List Bool),
      ((b :: how).foldl advanceOnce s).currentSlide = (s.currentSlide + 1) % s.slides.length ∧
      ((b :: how).foldl advanceOnce s).isTransitioning = true) ∧
    (s.slides.length = 3 → s.currentSlide = 0 →
      (advanceOnce (advanceOnce s true) true).currentSlide = 1 ∧
      (advanceOnce (advanceOnce (advanceOnce s true) true) true).currentSlide = 1) := by
  have hN : 1 ≤ s.slides.length := by omega
  have main : ∀ (b : Bool) (how : List Bool),
      ((b :: how).foldl advanceOnce s).currentSlide = (s.currentSlide + 1) % s.slides.length ∧
      ((b :: how).foldl advanceOnce s).isTransitioning = true := by
    intro b how
    obtain ⟨s', hs', hst, c1, _⟩ := showSlide_bare s ((s.currentSlide + 1) % s.slides.length) hT
      (Nat.mod_lt _ (by omega)) hno hbare
    have h1 : advanceOnce s b = fadeWindowElapses s' := by
      unfold advanceOnce
      rw [advance_call s b hN hT, hs', state_threw]
    have h2 : StuckLike s' (advanceOnce s b) := by
      rw [h1]
      exact stuckLike_window s' s' ⟨hst, rfl, rfl, rfl, rfl, fun _ => rfl, fun _ => rfl⟩
    rw [List.foldl_cons]
    obtain ⟨⟨r1, _⟩, r3, _⟩ := stuckLike_fold_advance s' _ how h2
    exact ⟨by rw [r3, c1], r1⟩
  refine ⟨main, ?_⟩
  intro h3 h0
  have a := (main true [true]).1
  have b := (main true [true, true]).1
  simp only [List.foldl_cons, List.foldl_nil, h3, h0] at a b
  exact ⟨a, b⟩

theorem navigation_stops_bare_witness :
    (1 ≤ sampleStartBare.slides.length ∧
      sampleStartBare.currentSlide < sampleStartBare.slides.length ∧
      sampleStartBare.isTransitioning = false ∧ noComplete sampleStartBare.timers ∧
      contentAt sampleStartBare.slides
        ((sampleStartBare.currentSlide + 1) % sampleStartBare.slides.length) = false ∧
      sampleStartBare.slides.length = 3 ∧ sampleStartBare.currentSlide = 0 ∧
      Reachable sampleViewBare sampleStartBare) ∧
    (advanceOnce (advanceOnce sampleStartBare true) true).currentSlide = 1 ∧
    (advanceOnce (advanceOnce (advanceOnce sampleStartBare true) true) true).currentSlide = 1 :=
  ⟨⟨by decide, by decide, by decide, sampleStartBare_noComplete, by decide, by decide,
      by decide, Reachable.init sampleStartBare_init⟩,
    (navigation_stops_bare sampleStartBare (by decide) (by decide) (by decide)
      sampleStartBare_noComplete (by decide)).2 (by decide) (by decide)⟩

theorem reachable_run (v : View) (s : State) (es : List Event) (h : Reachable v s) :
    Reachable v (run es s) := by
  unfold run
  induction es generalizing s with
  | nil => exact h
  | cons e rest ih =>
    rw [List.foldl_cons]
    exact ih _ (Reachable.step e h)

/-- C6, the code at the failing input: on the three-slide page with one dot per slide
whose slide 1 has no `.hero-content`, `init()` completes; a click on the next button then
sets `currentSlide = 1` and throws (line 40) before the dots loop of lines 43-47, so dot 0
is still the selected one, with `tabindex` 0, and dot 1 is not; every later state of the
page is the same in that respect. -/
theorem indicator_stale_bare :
    sampleViewBare.dots.length = sampleViewBare.slides.length ∧
    init sampleViewBare = some sampleStartBare ∧
    Reachable sampleViewBare sampleBareNext ∧
    handle Event.nextClick sampleStartBare = Outcome.threw sampleBareNext ∧
    sampleBareNext.currentSlide = 1 ∧
    sampleBareNext.dots =
      [{ ariaSelected := some true, tabindex := some 0 },
       { ariaSelected := some false, tabindex := some (-1) },
       { ariaSelected := some false, tabindex := some (-1) }] ∧
    ∀ es : List Event,
      Reachable sampleViewBare (run es sampleBareNext) ∧
      (run es sampleBareNext).currentSlide = 1 ∧
      (run es sampleBareNext).dots =
        [{ ariaSelected := some true, tabindex := some 0 },
         { ariaSelected := some false, tabindex := some (-1) },
         { ariaSelected := some false, tabindex := some (-1) }] := by
  have hr : Reachable sampleViewBare sampleBareNext :=
    Reachable.step _ (Reachable.init sampleStartBare_init)
  have hst : Stuck sampleBareNext := by
    refine ⟨by decide, ?_⟩
    have : sampleBareNext.timers = [] := by decide
    intro t ht
    rw [this] at ht
    exact absurd ht (List.not_mem_nil t)
  refine ⟨by decide, sampleStartBare_init, hr, by decide, by decide, by decide, ?_⟩
  intro es
  obtain ⟨_, r2, r3, _⟩ := stuckLike_run sampleBareNext sampleBareNext es
    ⟨hst, rfl, rfl, rfl, rfl, fun _ => rfl, fun _ => rfl⟩
  refine ⟨reachable_run _ _ es hr, by rw [r2]; decide, by rw [r3]; decide⟩

/-! ## C1 and C3 where the slides involved have their `.hero-content` -/

/-- Where the current slide and slide `i` have their `.hero-content`, C1 holds: with at
least two slides, in a state that is not transitioning and whose only `active` slide is
`slides[currentSlide]`, `showSlide(i)` for a valid `i ≠ currentSlide` sets
`currentSlide = i` at once and schedules the content reveal (100 ms) and the fade
completion (`FADE_DURATION` = 800 ms, capturing the outgoing slide).  Once the completion
callback has run, right away or after the reveal callback, slide `i` is the only `active`
slide, the outgoing slide is neither `active` nor `leaving`, and the transition is over. -/
theorem showSlide_transition_content (s : State) (i : Nat) (_hN : 2 ≤ s.slides.length)
    (hT : s.isTransitioning = false)
    (hact : ∀ k, activeAt s.slides k = true ↔ k = s.currentSlide)
    (hi : i < s.slides.length) (hne : i ≠ s.currentSlide)
    (hcc : contentAt s.slides s.currentSlide = true) (hci : contentAt s.slides i = true) :
    (∃ s1, showSlide (i : Int) s = Outcome.returned s1) ∧
    (showSlide (i : Int) s).state.currentSlide = i ∧
    FADE_DURATION = 800 ∧
    (showSlide (i : Int) s).state.timers = (pauseSlideShow s).timers ++
      [revealTimer s i, completeTimer s (some s.currentSlide)] ∧
    ∀ s2 : State,
      (s2 = (fire (completeTimer s (some s.currentSlide)) (showSlide (i : Int) s).state).state ∨
       s2 = (fire (completeTimer s (some s.currentSlide))
              (fire (revealTimer s i) (showSlide (i : Int) s).state).state).state) →
      s2.currentSlide = i ∧ s2.isTransitioning = false ∧
      (∀ k, activeAt s2.slides k = true ↔ k = i) ∧
      activeAt s2.slides s.currentSlide = false ∧ leavingAt s2.slides s.currentSlide = false := by
  have hq : queryActive s.slides = some s.currentSlide := queryActive_of_unique hact
  have h0 : (0 : Int) ≤ (i : Int) := Int.natCast_nonneg i
  have hlt : (i : Int) < (s.slides.length : Int) := by exact_mod_cast hi
  have hci' : contentAt s.slides (i : Int).toNat = true := by rw [Int.toNat_natCast]; exact hci
  have hq2 : queryActive s.slides ≠ some (i : Int).toNat := by
    rw [hq, Int.toNat_natCast]
    intro h
    exact hne (Option.some.inj h).symm
  obtain ⟨f1, _, _, f4, _, _, f7, _⟩ := showSlide_change_fields (i : Int) s hT h0 hlt hcc hci' hq2
  rw [Int.toNat_natCast] at f1 f4 f7
  rw [hq] at f4
  refine ⟨⟨_, showSlide_change (i : Int) s hT h0 hlt hcc hci' hq2⟩, f1, rfl, f4, ?_⟩
  have final : ∀ s1 : State, s1.currentSlide = i →
      (∀ k, activeAt s1.slides k = true ↔ (activeAt s.slides k = true ∨ k = i)) →
      ∀ s2, s2 = (fire (completeTimer s (some s.currentSlide)) s1).state →
      s2.currentSlide = i ∧ s2.isTransitioning = false ∧
      (∀ k, activeAt s2.slides k = true ↔ k = i) ∧
      activeAt s2.slides s.currentSlide = false ∧ leavingAt s2.slides s.currentSlide = false := by
    intro s1 hc ha s2 hs2
    obtain ⟨s', g0, g1, g2, g3, _⟩ := fire_complete
      (completeTimer s (some s.currentSlide)) (some s.currentSlide) s1 rfl
    rw [g0, state_returned] at hs2
    subst hs2
    have hall : ∀ k, activeAt (cleanUpOutgoing (some s.currentSlide) s1.slides) k = true ↔ k = i := by
      intro k
      rw [activeAt_cleanUpOutgoing, ha, hact]
      constructor
      · rintro ⟨h | h, h2⟩
        · exact absurd (by rw [h]) h2
        · exact h
      · intro h
        subst h
        exact ⟨Or.inr rfl, fun hc => hne (Option.some.inj hc).symm⟩
    refine ⟨by rw [g2, hc], g1, by rw [g3]; exact hall, ?_, ?_⟩
    · rw [g3]
      cases hb : activeAt (cleanUpOutgoing (some s.currentSlide) s1.slides) s.currentSlide with
      | false => rfl
      | true => exact absurd ((hall _).mp hb).symm hne
    · rw [g3]; exact leavingAt_cleanUp _ _
  rintro s2 (hs2 | hs2)
  · exact final _ f1 f7 s2 hs2
  · refine final _ ?_ ?_ s2 hs2
    · rw [fire_reveal _ i _ rfl]; exact f1
    · intro k
      rw [fire_reveal _ i _ rfl, state_returned]
      simp only [activeAt_modify_same revealContent (fun _ => rfl)]
      exact f7 k

theorem nextSlide_transitioning (s : State) (h : s.isTransitioning = true) :
    nextSlide s = Outcome.returned s :=
  showSlide_rejected _ s (Or.inl h)

theorem prevSlide_transitioning (s : State) (h : s.isTransitioning = true) :
    prevSlide s = Outcome.returned s :=
  showSlide_rejected _ s (Or.inl h)

theorem handleKeyDown_transitioning (key : Key) (s : State) (h : s.isTransitioning = true) :
    handleKeyDown key s = Outcome.returned s := by
  cases key <;> first | exact showSlide_rejected _ s (Or.inl h) | rfl

theorem handleTouchEnd_transitioning (x : Int) (s : State) (h : s.isTransitioning = true) :
    handleTouchEnd x s = Outcome.returned { s with touchEndX := x } := by
  unfold handleTouchEnd handleSwipe
  split
  · exact nextSlide_transitioning _ h
  · exact prevSlide_transitioning _ h
  · rfl

theorem fire_advance_transitioning (t : Timer) (s : State) (h : s.isTransitioning = true)
    (hcb : t.cb = Callback.advance) :
    fire t s =
      Outcome.returned
        { s with timers := s.timers.filter (fun u => u.id != t.id), now := max s.now t.due } := by
  unfold fire
  rw [hcb]
  show nextSlideFunc _ = _
  unfold nextSlideFunc
  rw [if_neg (by simp [h])]

/-- The part of C3 that holds on every page, and the rest where the slides involved have
their `.hero-content`: while `isTransitioning` is true every `showSlide` call returns the
state unchanged, and every event that ends in a `showSlide` call (button, key, dot, swipe,
auto-advance timer firing) leaves `currentSlide`, the slides, the dots, the live region
and the script's timer variables as they were and schedules nothing.  When a call is
accepted on slides that have their `.hero-content` and starts a transition, the completion
callback it scheduled, once run (directly or after the reveal callback), leaves
`isTransitioning = false`, and then `showSlide(j)` is accepted for every valid `j`. -/
theorem transition_guard_content (s : State) :
    (s.isTransitioning = true →
      (∀ i : Int, showSlide i s = Outcome.returned s) ∧
      ∀ e, isNavigation s e = true →
        handle e s = Outcome.returned (step e s) ∧
        (step e s).currentSlide = s.currentSlide ∧ (step e s).slides = s.slides ∧
        (step e s).dots = s.dots ∧ (step e s).slideIndicator = s.slideIndicator ∧
        (step e s).isTransitioning = true ∧ (step e s).slideInterval = s.slideInterval ∧
        (step e s).nextTimerId = s.nextTimerId ∧ (step e s).timers.Sublist s.timers) ∧
    (s.isTransitioning = false → contentAt s.slides s.currentSlide = true →
      ∀ i : Nat, contentAt s.slides i = true → queryActive s.slides ≠ some i →
        (showSlide (i : Int) s).state.isTransitioning = true ∧
        completeTimer s (queryActive s.slides) ∈ (showSlide (i : Int) s).state.timers ∧
        (completeTimer s (queryActive s.slides)).due = s.now + 800 ∧
        ∀ s2 : State,
          (s2 = (fire (completeTimer s (queryActive s.slides)) (showSlide (i : Int) s).state).state ∨
           s2 = (fire (completeTimer s (queryActive s.slides))
                  (fire (revealTimer s i) (showSlide (i : Int) s).state).state).state) →
          s2.isTransitioning = false ∧ s2.currentSlide = i ∧
          ∀ j : Nat, j < s.slides.length → j ≠ i →
            (showSlide (j : Int) s2).state.currentSlide = j) := by
  constructor
  · intro hT
    refine ⟨fun i => showSlide_rejected i s (Or.inl hT), ?_⟩
    intro e he
    unfold step
    cases e with
    | prevClick =>
      simp only [handle, prevSlide_transitioning s hT, state_returned, hT, List.Sublist.refl,
        and_self]
    | nextClick =>
      simp only [handle, nextSlide_transitioning s hT, state_returned, hT, List.Sublist.refl,
        and_self]
    | keydown key =>
      simp only [handle, handleKeyDown_transitioning key s hT, state_returned, hT,
        List.Sublist.refl, and_self]
    | touchstart x => simp [isNavigation] at he
    | touchend x =>
      simp only [handle, handleTouchEnd_transitioning x s hT, state_returned, hT,
        List.Sublist.refl, and_self]
    | dotClick index =>
      simp only [handle, showSlide_rejected _ s (Or.inl hT), ite_self, state_returned, hT,
        List.Sublist.refl, and_self]
    | dotKeydown index key =>
      simp only [handle, dotKeyDown, showSlide_rejected _ s (Or.inl hT), ite_self,
        state_returned, hT, List.Sublist.refl, and_self]
    | mouseenter => simp [isNavigation] at he
    | mouseleave => simp [isNavigation] at he
    | focusin => simp [isNavigation] at he
    | focusout => simp [isNavigation] at he
    | timer id =>
      simp only [isNavigation] at he
      simp only [handle, fireTimer]
      cases hf : s.timers.find? (fun t => t.id == id) with
      | none => simp [hf] at he
      | some t =>
        simp only [hf, decide_eq_true_eq] at he
        simp only [fire_advance_transitioning t s hT he, state_returned, hT, true_and]
        exact List.filter_sublist _
    | wait ms => simp [isNavigation] at he
  · intro hT hcc i hci hq
    have hi : i < s.slides.length := contentAt_lt hci
    have h0 : (0 : Int) ≤ (i : Int) := Int.natCast_nonneg i
    have hlt : (i : Int) < (s.slides.length : Int) := by exact_mod_cast hi
    have hci' : contentAt s.slides (i : Int).toNat = true := by rw [Int.toNat_natCast]; exact hci
    have hq2 : queryActive s.slides ≠ some (i : Int).toNat := by
      rw [Int.toNat_natCast]; exact hq
    obtain ⟨f1, f2, _, f4, _, _, _⟩ := showSlide_change_fields (i : Int) s hT h0 hlt hcc hci' hq2
    rw [Int.toNat_natCast] at f1 f4
    refine ⟨f2, by rw [f4]; simp, rfl, ?_⟩
    have final : ∀ s1 : State, s1.currentSlide = i → s1.slides.length = s.slides.length →
        ∀ s2, s2 = (fire (completeTimer s (queryActive s.slides)) s1).state →
        s2.isTransitioning = false ∧ s2.currentSlide = i ∧
        ∀ j : Nat, j < s.slides.length → j ≠ i →
          (showSlide (j : Int) s2).state.currentSlide = j := by
      intro s1 hc hl s2 hs2
      obtain ⟨s', g0, g1, g2, g3, _⟩ := fire_complete
        (completeTimer s (queryActive s.slides)) (queryActive s.slides) s1 rfl
      rw [g0, state_returned] at hs2
      subst hs2
      refine ⟨g1, by rw [g2, hc], ?_⟩
      intro j hj _
      have := showSlide_accepted_currentSlide (j : Int) _ g1 (Int.natCast_nonneg j)
        (by rw [g3, length_cleanUpOutgoing, hl]; exact_mod_cast hj)
      rw [Int.toNat_natCast] at this
      exact this
    rintro s2 (hs2 | hs2)
    · exact final _ f1 (showSlide_lengths _ s).1 s2 hs2
    · refine final _ ?_ ?_ s2 hs2
      · rw [fire_reveal _ i _ rfl]; exact f1
      · rw [fire_reveal _ i _ rfl, state_returned]
        simp only [List.length_modify]
        exact (showSlide_lengths _ s).1

/-! ## C5 and C6 on a page whose slides all have their `.hero-content` -/

theorem contentAt_showSlide (i : Int) (s : State) (k : Nat) :
    contentAt (showSlide i s).state.slides k = contentAt s.slides k := by
  by_cases hrej : s.isTransitioning = true ∨ i < 0 ∨ (s.slides.length : Int) ≤ i
  · rw [showSlide_rejected i s hrej]; rfl
  · simp only [not_or, Bool.not_eq_true, not_lt, not_le] at hrej
    obtain ⟨hT, h0, hN⟩ := hrej
    by_cases hc : contentAt s.slides s.currentSlide = true ∧ contentAt s.slides i.toNat = true
    · obtain ⟨hcc, hci⟩ := hc
      by_cases hq : queryActive s.slides = some i.toNat
      · rw [showSlide_same i s hT h0 hN hcc hci hq, state_returned]
        simp only [contentAt_ariaUpdated]
      · exact (showSlide_change_fields i s hT h0 hN hcc hci hq).2.2.2.2.2.2.2.2 k
    · have hc' : contentAt s.slides s.currentSlide = false ∨ contentAt s.slides i.toNat = false := by
        by_cases h1 : contentAt s.slides s.currentSlide = true
        · right
          cases h2 : contentAt s.slides i.toNat
          · rfl
          · exact absurd ⟨h1, h2⟩ hc
        · left; simpa using h1
      obtain ⟨s', hs', _, _, _, _, _, _, _, _, _, c⟩ := showSlide_threw i s hT h0 hN hc'
      rw [hs', state_threw]
      exact c k

theorem fire_other (t : Timer) (s : State) (h : t.cb ≠ Callback.advance) :
    (fire t s).state.currentSlide = s.currentSlide ∧
    (fire t s).state.slides.length = s.slides.length ∧
    (s.isTransitioning = false → (fire t s).state.isTransitioning = false) ∧
    (∀ o, t.cb = Callback.complete o → (fire t s).state.isTransitioning = false) ∧
    (∀ k, contentAt (fire t s).state.slides k = contentAt s.slides k) := by
  cases hcb : t.cb with
  | reveal n =>
    rw [fire_reveal t n s hcb, state_returned]
    exact ⟨rfl, by simp [List.length_modify], fun h => h, fun o ho => by simp at ho,
      fun k => contentAt_modify revealContent revealContent_content _ _ _⟩
  | complete o =>
    obtain ⟨s', g0, g1, g2, g3, _⟩ := fire_complete t o s hcb
    rw [g0, state_returned]
    exact ⟨g2, by rw [g3, length_cleanUpOutgoing], fun _ => g1, fun _ _ => g1,
      fun k => by rw [g3, contentAt_cleanUpOutgoing]⟩
  | advance => exact absurd hcb h

theorem foldl_fire (l : List Timer) (hl : ∀ t ∈ l, t.cb ≠ Callback.advance) (s : State) :
    (l.foldl (fun st t => (fire t st).state) s).currentSlide = s.currentSlide ∧
    (l.foldl (fun st t => (fire t st).state) s).slides.length = s.slides.length ∧
    ((s.isTransitioning = false ∨ ∃ t ∈ l, ∃ o, t.cb = Callback.complete o) →
      (l.foldl (fun st t => (fire t st).state) s).isTransitioning = false) ∧
    (∀ k, contentAt (l.foldl (fun st t => (fire t st).state) s).slides k = contentAt s.slides k) := by
  induction l generalizing s with
  | nil =>
    refine ⟨rfl, rfl, ?_, fun _ => rfl⟩
    rintro (h | ⟨t, ht, _⟩)
    · exact h
    · simp at ht
  | cons t rest ih =>
    obtain ⟨a1, a2, a3, a4, a5⟩ := fire_other t s (hl t (by simp))
    obtain ⟨b1, b2, b3, b4⟩ := ih (fun u hu => hl u (by simp [hu])) (fire t s).state
    rw [List.foldl_cons]
    refine ⟨by rw [b1, a1], by rw [b2, a2], ?_, fun k => by rw [b4, a5]⟩
    rintro (h | ⟨u, hu, o, ho⟩)
    · exact b3 (Or.inl (a3 h))
    · rw [List.mem_cons] at hu
      rcases hu with rfl | hu
      · exact b3 (Or.inl (a4 o ho))
      · exact b3 (Or.inr ⟨u, hu, o, ho⟩)

theorem fadeWindowElapses_spec (s : State)
    (h : s.isTransitioning = false ∨ ∃ t ∈ s.timers, ∃ o, t.cb = Callback.complete o) :
    (fadeWindowElapses s).currentSlide = s.currentSlide ∧
    (fadeWindowElapses s).slides.length = s.slides.length ∧
    (fadeWindowElapses s).isTransitioning = false ∧
    (∀ k, contentAt (fadeWindowElapses s).slides k = contentAt s.slides k) := by
  unfold fadeWindowElapses
  obtain ⟨b1, b2, b3, b4⟩ := foldl_fire
    (s.timers.filter (fun t => decide (t.cb ≠ Callback.advance)))
    (fun t ht => by simpa using (List.mem_filter.mp ht).2) s
  refine ⟨b1, b2, b3 ?_, b4⟩
  rcases h with h | ⟨t, ht, o, ho⟩
  · exact Or.inl h
  · exact Or.inr ⟨t, List.mem_filter.mpr ⟨ht, by simp [ho]⟩, o, ho⟩

theorem showSlide_then_window (i : Nat) (s : State) (hT : s.isTransitioning = false)
    (hcc : contentAt s.slides s.currentSlide = true) (hci : contentAt s.slides i = true) :
    (fadeWindowElapses (showSlide (i : Int) s).state).currentSlide = i ∧
    (fadeWindowElapses (showSlide (i : Int) s).state).slides.length = s.slides.length ∧
    (fadeWindowElapses (showSlide (i : Int) s).state).isTransitioning = false ∧
    (∀ k, contentAt (fadeWindowElapses (showSlide (i : Int) s).state).slides k =
      contentAt s.slides k) := by
  have hi : i < s.slides.length := contentAt_lt hci
  have h0 : (0 : Int) ≤ (i : Int) := Int.natCast_nonneg i
  have hlt : (i : Int) < (s.slides.length : Int) := by exact_mod_cast hi
  have hci' : contentAt s.slides (i : Int).toNat = true := by rw [Int.toNat_natCast]; exact hci
  have hcur := showSlide_accepted_currentSlide (i : Int) s hT h0 hlt
  rw [Int.toNat_natCast] at hcur
  have hpre : (showSlide (i : Int) s).state.isTransitioning = false ∨
      ∃ t ∈ (showSlide (i : Int) s).state.timers, ∃ o, t.cb = Callback.complete o := by
    by_cases hq : queryActive s.slides = some (i : Int).toNat
    · left
      rw [showSlide_same (i : Int) s hT h0 hlt hcc hci' hq]
      rfl
    · right
      obtain ⟨_, _, _, f4, _⟩ := showSlide_change_fields (i : Int) s hT h0 hlt hcc hci' hq
      exact ⟨completeTimer s (queryActive s.slides), by rw [f4]; simp, _, rfl⟩
  obtain ⟨c1, c2, c3, c4⟩ := fadeWindowElapses_spec _ hpre
  exact ⟨by rw [c1, hcur], by rw [c2, (showSlide_lengths _ s).1], c3,
    fun k => by rw [c4, contentAt_showSlide]⟩

theorem advanceOnce_spec (s : State) (b : Bool) (hc : s.currentSlide < s.slides.length)
    (hT : s.isTransitioning = false) (hall : allContent s.slides) :
    (advanceOnce s b).currentSlide = (s.currentSlide + 1) % s.slides.length ∧
    (advanceOnce s b).slides.length = s.slides.length ∧
    (advanceOnce s b).isTransitioning = false ∧ allContent (advanceOnce s b).slides := by
  have hN : 1 ≤ s.slides.length := by omega
  unfold advanceOnce
  rw [advance_call s b hN hT]
  obtain ⟨a1, a2, a3, a4⟩ := showSlide_then_window ((s.currentSlide + 1) % s.slides.length) s hT
    (hall _ hc) (hall _ (Nat.mod_lt _ (by omega)))
  refine ⟨a1, a2, a3, ?_⟩
  intro k hk
  rw [a4]
  exact hall k (by rw [a2] at hk; exact hk)

theorem retreatOnce_spec (s : State) (hc : s.currentSlide < s.slides.length)
    (hT : s.isTransitioning = false) (hall : allContent s.slides) :
    (retreatOnce s).currentSlide = (s.currentSlide + (s.slides.length - 1)) % s.slides.length ∧
    (retreatOnce s).slides.length = s.slides.length ∧
    (retreatOnce s).isTransitioning = false ∧ allContent (retreatOnce s).slides := by
  have hN : 1 ≤ s.slides.length := by omega
  unfold retreatOnce prevSlide
  rw [prevSlide_index s hN]
  obtain ⟨a1, a2, a3, a4⟩ := showSlide_then_window
    ((s.currentSlide + (s.slides.length - 1)) % s.slides.length) s hT
    (hall _ hc) (hall _ (Nat.mod_lt _ (by omega)))
  refine ⟨a1, a2, a3, ?_⟩
  intro k hk
  rw [a4]
  exact hall k (by rw [a2] at hk; exact hk)

theorem advance_fold (how : List Bool) (s : State) (hc : s.currentSlide < s.slides.length)
    (hT : s.isTransitioning = false) (hall : allContent s.slides) :
    (how.foldl advanceOnce s).currentSlide = (s.currentSlide + how.length) % s.slides.length ∧
    (how.foldl advanceOnce s).slides.length = s.slides.length ∧
    (how.foldl advanceOnce s).isTransitioning = false := by
  induction how generalizing s with
  | nil => exact ⟨by simp [Nat.mod_eq_of_lt hc], rfl, hT⟩
  | cons b rest ih =>
    obtain ⟨a1, a2, a3, a4⟩ := advanceOnce_spec s b hc hT hall
    obtain ⟨b1, b2, b3⟩ := ih (advanceOnce s b)
      (by rw [a1, a2]; exact Nat.mod_lt _ (by omega)) a3 a4
    rw [List.foldl_cons]
    refine ⟨?_, by rw [b2, a2], b3⟩
    rw [b1, a1, a2, Nat.mod_add_mod, List.length_cons]
    congr 1
    omega

theorem retreat_iterate (k : Nat) (s : State) (hc : s.currentSlide < s.slides.length)
    (hT : s.isTransitioning = false) (hall : allContent s.slides) :
    (((retreatOnce^[k] s).currentSlide : Nat) : Int) =
      ((s.currentSlide : Int) - (k : Int)) % (s.slides.length : Int) ∧
    (retreatOnce^[k] s).slides.length = s.slides.length ∧
    (retreatOnce^[k] s).isTransitioning = false ∧ allContent (retreatOnce^[k] s).slides ∧
    (retreatOnce^[k] s).currentSlide < s.slides.length := by
  induction k with
  | zero =>
    refine ⟨?_, rfl, hT, hall, hc⟩
    simp only [Function.iterate_zero, id_eq, Nat.cast_zero, sub_zero]
    rw [Int.emod_eq_of_lt (by omega) (by exact_mod_cast hc)]
  | succ k ih =>
    obtain ⟨i1, i2, i3, i4, i5⟩ := ih
    rw [Function.iterate_succ_apply']
    obtain ⟨a1, a2, a3, a4⟩ := retreatOnce_spec (retreatOnce^[k] s) (by rw [i2]; exact i5) i3 i4
    refine ⟨?_, by rw [a2, i2], a3, a4, by rw [a1, i2]; exact Nat.mod_lt _ (by omega)⟩
    rw [a1, i2]
    have hN : 1 ≤ s.slides.length := by omega
    rw [Int.natCast_mod]
    push_cast [Nat.cast_sub hN]
    rw [i1]
    have e : ((s.currentSlide : Int) - (k : Int)) % (s.slides.length : Int) +
        ((s.slides.length : Int) - 1) =
        (((s.currentSlide : Int) - (k : Int)) % (s.slides.length : Int) - 1) +
          (s.slides.length : Int) := by ring
    rw [e, Int.add_emod_self, Int.sub_emod, Int.emod_emod_of_dvd _ (dvd_refl _), ← Int.sub_emod]
    congr 1
    ring

/-- Where every slide has its `.hero-content`, C5 holds: from a state that is not
transitioning, with `N ≥ 1` slides and `currentSlide = c` in range, `k` advances, each one
`nextSlide()` called directly or through the auto-advance callback `nextSlideFunc()` and
each followed by its fade window, end on slide `(c + k) mod N`; `k` calls of `prevSlide()`
end on `(c - k) mod N`; so `N` moves in either direction come back to `c`, and with three
slides starting at slide 0 two timer fires reach slide 2 and a third wraps to slide 0. -/
theorem navigation_cyclic_content (s : State) (_hN : 1 ≤ s.slides.length)
    (hc : s.currentSlide < s.slides.length) (hT : s.isTransitioning = false)
    (hall : allContent s.slides) :
    (∀ how : List Bool,
      (how.foldl advanceOnce s).currentSlide = (s.currentSlide + how.length) % s.slides.length) ∧
    (∀ k : Nat, (((retreatOnce^[k] s).currentSlide : Nat) : Int) =
      ((s.currentSlide : Int) - (k : Int)) % (s.slides.length : Int)) ∧
    (∀ how : List Bool, how.length = s.slides.length →
      (how.foldl advanceOnce s).currentSlide = s.currentSlide) ∧
    (retreatOnce^[s.slides.length] s).currentSlide = s.currentSlide ∧
    (s.slides.length = 3 → s.currentSlide = 0 →
      (advanceOnce (advanceOnce s true) true).currentSlide = 2 ∧
      (advanceOnce (advanceOnce (advanceOnce s true) true) true).currentSlide = 0) := by
  refine ⟨fun how => (advance_fold how s hc hT hall).1,
    fun k => (retreat_iterate k s hc hT hall).1, ?_, ?_, ?_⟩
  · intro how hlen
    rw [(advance_fold how s hc hT hall).1, hlen, Nat.add_mod_right, Nat.mod_eq_of_lt hc]
  · have := (retreat_iterate s.slides.length s hc hT hall).1
    rw [Int.sub_emod, Int.emod_self, sub_zero, Int.emod_emod_of_dvd _ (dvd_refl _),
      Int.emod_eq_of_lt (by omega) (by exact_mod_cast hc)] at this
    exact_mod_cast this
  · intro h3 h0
    have h2 := (advance_fold [true, true] s hc hT hall).1
    have h3' := (advance_fold [true, true, true] s hc hT hall).1
    simp only [List.foldl_cons, List.foldl_nil, List.length_cons, List.length_nil, h3, h0] at h2 h3'
    exact ⟨h2, h3'⟩

/-- The accessibility state agrees with `currentSlide` in every reachable state of a page
whose slides all have their `.hero-content`. -/
theorem pageOk_of_reachable (v : View) (s : State) (hall : allContent v.slides)
    (h : Reachable v s) :
    PageOk s.slides s.dots s.slideIndicator s.currentSlide ∧ allContent s.slides := by
  have show_ok : ∀ (i : Int) (s : State),
      PageOk s.slides s.dots s.slideIndicator s.currentSlide ∧ allContent s.slides →
      PageOk (showSlide i s).state.slides (showSlide i s).state.dots
        (showSlide i s).state.slideIndicator (showSlide i s).state.currentSlide ∧
        allContent (showSlide i s).state.slides := by
    intro i s hs
    have hall' : allContent (showSlide i s).state.slides := by
      intro k hk
      rw [contentAt_showSlide]
      exact hs.2 k (by rw [(showSlide_lengths i s).1] at hk; exact hk)
    refine ⟨?_, hall'⟩
    by_cases hrej : s.isTransitioning = true ∨ i < 0 ∨ (s.slides.length : Int) ≤ i
    · rw [showSlide_rejected i s hrej]; exact hs.1
    · simp only [not_or, Bool.not_eq_true, not_lt, not_le] at hrej
      obtain ⟨hT, h0, hN⟩ := hrej
      exact pageOk_showSlide i s hT h0 hN (hs.2 _ hs.1.1) (hs.2 _ (by omega))
  induction h with
  | init h0 =>
    obtain ⟨hc, rfl⟩ := init_eq_some v _ h0
    have h1 : PageOk (ariaUpdated none 0 (declared v)).slides (ariaUpdated none 0 (declared v)).dots
        (ariaUpdated none 0 (declared v)).slideIndicator
        (ariaUpdated none 0 (declared v)).currentSlide ∧
        allContent (ariaUpdated none 0 (declared v)).slides := by
      refine ⟨?_, ?_⟩
      · rw [(ariaUpdated_rest none 0 (declared v)).2.2.2.1]
        exact pageOk_ariaUpdated none 0 (declared v) hc
      · intro k hk
        rw [contentAt_ariaUpdated]
        exact hall k (by rw [(ariaUpdated_rest none 0 (declared v)).2.2.2.2.2.2.2] at hk; exact hk)
    have h2 := show_ok 0 _ h1
    unfold started
    by_cases hn : (showSlide 0 (ariaUpdated none 0 (declared v))).state.slideInterval = Handle.null
    · rw [start_of_null _ hn]; exact h2
    · rw [start_of_not_null _ hn]; exact h2
  | step e _ ih =>
    refine step_preserves
      (fun s => PageOk s.slides s.dots s.slideIndicator s.currentSlide ∧ allContent s.slides)
      show_ok ?_ ?_ ?_ (fun _ _ _ hs => hs) (fun _ _ hs => hs) e _ ih
    · intro s hs
      rw [(pause_rest s).1, (pause_rest s).2.1, (pause_rest s).2.2.1, (pause_rest s).2.2.2.1]
      exact hs
    · intro s hs
      by_cases hn : s.slideInterval = Handle.null
      · rw [start_of_null s hn]; exact hs
      · rw [start_of_not_null s hn]; exact hs
    · intro t s _ hs
      cases hcb : t.cb with
      | reveal n =>
        rw [fire_reveal t n s hcb, state_returned]
        refine ⟨hs.1.modify revealContent revealContent_aria n, ?_⟩
        intro k hk
        rw [contentAt_modify revealContent revealContent_content]
        exact hs.2 k (by simpa [List.length_modify] using hk)
      | complete o =>
        obtain ⟨s', g0, _, g2, g3, g4, g5, _⟩ := fire_complete t o s hcb
        rw [g0, state_returned, g2, g3, g4, g5]
        refine ⟨hs.1.cleanUpOutgoing o, ?_⟩
        intro k hk
        rw [contentAt_cleanUpOutgoing]
        exact hs.2 k (by rw [length_cleanUpOutgoing] at hk; exact hk)
      | advance =>
        unfold fire
        rw [hcb]
        show PageOk (nextSlideFunc _).state.slides (nextSlideFunc _).state.dots
          (nextSlideFunc _).state.slideIndicator (nextSlideFunc _).state.currentSlide ∧
          allContent (nextSlideFunc _).state.slides
        unfold nextSlideFunc nextSlide
        split
        · exact show_ok _ _ hs
        · exact hs

/-- Where every slide has its `.hero-content`, C6 holds: with one dot per slide, in every
state reachable from a completed `init`, the dot at index `currentSlide` exists, a dot has
`aria-selected = true` exactly when its index is `currentSlide` (so exactly one has), and
it has `tabindex` 0 exactly then and -1 otherwise. -/
theorem indicator_invariant_content (v : View) (s : State)
    (hdots : v.dots.length = v.slides.length) (hall : allContent v.slides)
    (h : Reachable v s) :
    s.dots.length = s.slides.length ∧ s.currentSlide < s.dots.length ∧
    (∃! j : Nat, ∃ d : Dot, s.dots[j]? = some d ∧ d.ariaSelected = some true) ∧
    ∀ j d, s.dots[j]? = some d →
      (d.ariaSelected = some true ↔ j = s.currentSlide) ∧
      (d.tabindex = some 0 ↔ j = s.currentSlide) ∧
      (j ≠ s.currentSlide → d.ariaSelected = some false ∧ d.tabindex = some (-1)) := by
  have inv := inv_of_reachable v s h
  obtain ⟨⟨hcur, hd, _, _⟩, _⟩ := pageOk_of_reachable v s hall h
  have hlen : s.dots.length = s.slides.length := by
    rw [inv.dots_length, inv.slides_length, hdots]
  have key : ∀ j d, s.dots[j]? = some d →
      (d.ariaSelected = some true ↔ j = s.currentSlide) ∧
      (d.tabindex = some 0 ↔ j = s.currentSlide) ∧
      (j ≠ s.currentSlide → d.ariaSelected = some false ∧ d.tabindex = some (-1)) := by
    intro j d hj
    obtain ⟨h1, h2⟩ := hd j d hj
    rw [h1, h2]
    by_cases hjc : j = s.currentSlide <;> simp [hjc]
  refine ⟨hlen, by omega, ?_, key⟩
  have hex : s.currentSlide < s.dots.length := by omega
  refine ⟨s.currentSlide, ⟨s.dots[s.currentSlide], List.getElem?_eq_getElem hex, ?_⟩, ?_⟩
  · exact (key _ _ (List.getElem?_eq_getElem hex)).1.mpr rfl
  · rintro j ⟨d, hj, hsel⟩
    exact (key j d hj).1.mp hsel

end HeroCarousel
